import Mathlib

/-!
Verification development for the transcript-generator pipeline
(`src/components/transcript-generator.js`).

The JavaScript source is shallowly embedded below.  Strings are Lean
`String`s (lists of unicode characters, as in JS); machine numbers in the
source are small integers, embedded as `Nat`/`Int`.  The handful of
JS-runtime behaviours the code relies on (the `\s`, `\d` and `.`
character classes of JS regular expressions, `String.prototype.trim`,
`parseInt`, number-to-string conversion, the key-enumeration order of
plain objects) are embedded explicitly and documented at their
definitions.  `new Date(...)` parsing is host-defined in JS and is
modelled as an explicit parameter (see `formatSession`).
-/

/-- The JS regular-expression `\s` class (also the set removed by
`String.prototype.trim`): ASCII whitespace, NBSP, the unicode space
separators, the line terminators and the BOM. -/
def isWhite (c : Char) : Bool :=
  let n := c.toNat
  n == 0x20 || n == 0x09 || n == 0x0A || n == 0x0D || n == 0x0B || n == 0x0C ||
  n == 0xA0 || n == 0x1680 || (0x2000 ≤ n && n ≤ 0x200A) ||
  n == 0x2028 || n == 0x2029 || n == 0x202F || n == 0x205F ||
  n == 0x3000 || n == 0xFEFF

/-- JS line terminators: the characters a JS regex `.` does not match and
at which `$` (without the `m` flag) cannot be crossed. -/
def isLineTerm (c : Char) : Bool :=
  let n := c.toNat
  n == 0x0A || n == 0x0D || n == 0x2028 || n == 0x2029

/-- The JS regular-expression `\d` class: the ASCII decimal digits. -/
def isDigitCh (c : Char) : Bool :=
  0x30 ≤ c.toNat && c.toNat ≤ 0x39

/-- Strip leading `\s` characters from a character list. -/
def dropWhite (l : List Char) : List Char := l.dropWhile isWhite

/-- Embedding of `String.prototype.trim`: remove whitespace from both ends. -/
def jsTrim (s : String) : String :=
  String.mk ((dropWhite s.data).reverse.dropWhile isWhite).reverse

/-- ASCII lower-casing of a single character, as `String.prototype.toLowerCase`
acts on the character ranges occurring in the patterns below. -/
def lcase (c : Char) : Char :=
  if 0x41 ≤ c.toNat ∧ c.toNat ≤ 0x5A then Char.ofNat (c.toNat + 32) else c

/-- Embedding of `String.prototype.toLowerCase`, restricted to per-character ASCII
lower-casing (the only case-folding the embedded comparisons depend on). -/
def lcaseStr (s : String) : String := String.mk (s.data.map lcase)

/-- Source: `splitCatNoAndCourse` (transcript-generator.js:22).

```js
const strVal = String(value || "").trim();
const match = /^(\d+)\s+(.*)$/.exec(strVal);
if (match) return [match[1], match[2]];
return ["", strVal];
```

Embedding of the regex semantics: `^(\d+)\s+(.*)$` (no flags) matches the
trimmed string iff it starts with at least one digit, the maximal digit run
is followed by at least one `\s` character, and the suffix after the
maximal whitespace run contains no line terminator (JS `.` does not match
line terminators and `$` without `m` matches only at the end of input;
backtracking the greedy `\d+`/`\s+` cannot rescue a failed match because
digits and whitespace are disjoint and shrinking `\s+` only prepends
characters to the `.*$` suffix).  Group 1 is the maximal digit run and
group 2 the suffix after the maximal whitespace run. -/
def splitCatNoAndCourse (value : String) : String × String :=
  let t := jsTrim value
  let ds := t.data.takeWhile isDigitCh
  let l1 := t.data.dropWhile isDigitCh
  let ws := l1.takeWhile isWhite
  let r := l1.dropWhile isWhite
  if 1 ≤ ds.length ∧ 1 ≤ ws.length ∧ r.all (fun c => !(isLineTerm c)) then
    (String.mk ds, String.mk r)
  else ("", t)

/-- The result of a successful JS `new Date(value)` call, as observed by
`formatSession`: `month` is the 0-based calendar month (as `getMonth`),
`fullYear` the result of `getFullYear`. -/
structure JSDate where
  month : Fin 12
  fullYear : Nat
deriving DecidableEq

/-- Embedding of `toLocaleString` with en-US short months: the
en-US three-letter month abbreviation. -/
def monthShortName (m : Fin 12) : String :=
  ["Jan", "Feb", "Mar", "Apr", "May", "Jun",
   "Jul", "Aug", "Sep", "Oct", "Nov", "Dec"].getD m.val ""

/-- Embedding of `str.slice(-2)`: the last two characters (the whole string when it is
shorter than two characters). -/
def sliceLastTwo (s : String) : String :=
  String.mk (s.data.drop (s.data.length - 2))

/-- Source: `formatSession` (transcript-generator.js:34).

```js
const date = new Date(value);
if (isNaN(date.getTime())) return String(value || "");
const monthAbbr = date.toLocaleString("en-US", { month: "short" });
const twoDigitYear = date.getFullYear().toString().slice(-2);
const semester = ["Jan","Feb","Mar","Apr","May","Jun"].includes(monthAbbr) ? "Sem II" : "Sem I";
return `${monthAbbr}-${twoDigitYear} ${semester}`;
```

JS `Date` parsing is host-defined, so it is passed in as the oracle
`parseDate` (`none` models an invalid date).  For a string input,
`String(value || "")` is `value` itself (when `value` is `""` the `||`
produces `""`, which is again `value`). -/
def formatSession (parseDate : String → Option JSDate) (value : String) : String :=
  match parseDate value with
  | none => value
  | some d =>
    let monthAbbr := monthShortName d.month
    let twoDigitYear := sliceLastTwo (toString d.fullYear)
    let semester :=
      if ["Jan", "Feb", "Mar", "Apr", "May", "Jun"].contains monthAbbr
      then "Sem II" else "Sem I"
    monthAbbr ++ "-" ++ twoDigitYear ++ " " ++ semester

/-- Case-sensitive prefix test on character lists (used on lower-cased
input, which embeds the `/i` flag of the source regexes). -/
def isPre : List Char → List Char → Bool
  | [], _ => true
  | _ :: _, [] => false
  | p :: ps, c :: cs => p == c && isPre ps cs

/-- The `(Aug|Sep|Oct|Nov|Dec)` alternatives, lower-cased. -/
def monthsAut : List (List Char) :=
  [['a','u','g'], ['s','e','p'], ['o','c','t'], ['n','o','v'], ['d','e','c']]

/-- The `(Jan|Feb|Mar|Apr|May|Jun)` alternatives, lower-cased. -/
def monthsSpr : List (List Char) :=
  [['j','a','n'], ['f','e','b'], ['m','a','r'], ['a','p','r'], ['m','a','y'], ['j','u','n']]

/-- Try the month alternatives (in regex order) as a prefix of `l`;
on success return the characters after the month.  At any position at most
one three-letter alternative can match, so alternative order is immaterial. -/
def monthAt (alts : List (List Char)) (l : List Char) : Option (List Char) :=
  match alts with
  | [] => none
  | a :: rest => if isPre a l then some (l.drop a.length) else monthAt rest l

/-- Match `-(\d{2,4})\s+Sem\s*I` (`two` = `false`) or `-(\d{2,4})\s+Sem\s*II`
(`two` = `true`) against lower-cased `l`, returning the captured digit group.

Derivation from the regex engine: the greedy `\d{2,4}` must end at the end
of the maximal digit run (any shorter choice is followed by a digit, where
`\s+` fails), so the run's length must be between 2 and 4; `\s+` and `\s*`
likewise extend to their maximal runs because the following literal
characters are not whitespace. -/
def semTail (two : Bool) (l : List Char) : Option (List Char) :=
  match l with
  | '-' :: l1 =>
    let ds := l1.takeWhile isDigitCh
    let l2 := l1.dropWhile isDigitCh
    if 2 ≤ ds.length ∧ ds.length ≤ 4 then
      let ws := l2.takeWhile isWhite
      let l3 := l2.dropWhile isWhite
      if 1 ≤ ws.length then
        if isPre ['s','e','m'] l3 then
          let l4 := (l3.drop 3).dropWhile isWhite
          if isPre (if two then ['i','i'] else ['i']) l4 then some ds else none
        else none
      else none
    else none
  | _ => none

/-- Attempt a match starting exactly at the head of `l`. -/
def tryAt (alts : List (List Char)) (two : Bool) (l : List Char) : Option (List Char) :=
  match monthAt alts l with
  | none => none
  | some r => semTail two r

/-- Leftmost search, as `RegExp.prototype.exec`: try each start position
from the left and return the first successful match's digit group. -/
def scanAux (alts : List (List Char)) (two : Bool) : List Char → Option (List Char)
  | [] => none
  | c :: t =>
    match tryAt alts two (c :: t) with
    | some ds => some ds
    | none => scanAux alts two t

/-- Embedding of `/(Aug|Sep|Oct|Nov|Dec)-(\d{2,4})\s+Sem\s*I/i.exec(label)`,
returning group 2.  The `/i` flag is embedded by matching lower-cased
patterns against the lower-cased subject; the captured group consists of
digits, which lower-casing fixes pointwise, so the capture equals the
corresponding slice of the original subject. -/
def scanSemI (s : String) : Option (List Char) :=
  scanAux monthsAut false (s.data.map lcase)

/-- Embedding of `/(Jan|Feb|Mar|Apr|May|Jun)-(\d{2,4})\s+Sem\s*II/i.exec(label)`,
returning group 2 (same conventions as `scanSemI`). -/
def scanSemII (s : String) : Option (List Char) :=
  scanAux monthsSpr true (s.data.map lcase)

/-- Numeric value of a digit string, as `parseInt(digits, 10)` computes it
for a string of decimal digits. -/
def digitsToNat (l : List Char) : Nat :=
  l.foldl (fun a c => a * 10 + (c.toNat - 48)) 0

/-- Decimal rendering of a natural number, digit by digit (fuel-based
structural recursion; `n + 1` units of fuel always suffice since the
argument strictly decreases).  This is how JS `String(n)` renders
integer-valued numbers of this size. -/
def natToStrAux : Nat → Nat → String
  | 0, _ => ""
  | fuel + 1, n =>
    if n < 10 then String.mk [Char.ofNat (48 + n)]
    else natToStrAux fuel (n / 10) ++ String.mk [Char.ofNat (48 + n % 10)]

/-- Decimal rendering of a natural number, as JS `String(n)`. -/
def natToStr (n : Nat) : String := natToStrAux (n + 1) n

/-- Decimal rendering of an integer, as JS `String(n)` for integer values:
a minus sign followed by the digits for negative values. -/
def intToStr (n : Int) : String :=
  if n < 0 then "-" ++ natToStr n.natAbs else natToStr n.natAbs

/-- The half of the academic year a session belongs to. -/
inductive Half
  | I
  | II
deriving DecidableEq

/-- Result of `getAcademicYear`: the source's `matched` field
(`"SemI"`/`"SemII"`/`null`) is embedded as `Option Half`. -/
structure YearClass where
  year : String
  half : Option Half
deriving DecidableEq

/-- Source: `getAcademicYear` (transcript-generator.js:83).

```js
const semIRegex = /(Aug|Sep|Oct|Nov|Dec)-(\d{2,4})\s+Sem\s*I/i;
const semIIRegex = /(Jan|Feb|Mar|Apr|May|Jun)-(\d{2,4})\s+Sem\s*II/i;
let match = semIRegex.exec(sessionLabel);
if (match) return { year: match[2], matched: "SemI" };
match = semIIRegex.exec(sessionLabel);
if (match) {
  const adjustedYear = String(parseInt(match[2], 10) - 1);
  return { year: adjustedYear, matched: "SemII" };
}
return { year: "Unknown", matched: null };
```

`match[2]` is a string of 2 to 4 decimal digits, so `parseInt(match[2], 10)`
is its numeric value. -/
def getAcademicYear (sessionLabel : String) : YearClass :=
  match scanSemI sessionLabel with
  | some ds => ⟨String.mk ds, some Half.I⟩
  | none =>
    match scanSemII sessionLabel with
    | some ds => ⟨intToStr ((digitsToNat ds : Int) - 1), some Half.II⟩
    | none => ⟨"Unknown", none⟩

/-- One element of the source's `processed` array (transcript-generator.js:145):
the raw session cell, the canonical session label from `formatSession`, and
the four business fields.  All spreadsheet cell values reach this point as
strings (empty for absent cells). -/
structure PRec where
  rawSem : String
  sem : String
  course : String
  catNo : String
  grade : String
  semHrs : String
deriving DecidableEq

/-- The course-only fields pushed into a session bucket
(transcript-generator.js:195). -/
structure CRec where
  course : String
  catNo : String
  grade : String
  semHrs : String
deriving DecidableEq

/-- The course-only projection of a processed record. -/
def toCRec (r : PRec) : CRec := ⟨r.course, r.catNo, r.grade, r.semHrs⟩

/-- A truly blank row (transcript-generator.js:168): all four trimmed
business fields empty. -/
def isBlankRec (r : PRec) : Bool :=
  jsTrim r.rawSem == "" && jsTrim r.course == "" && jsTrim r.grade == "" && jsTrim r.semHrs == ""

/-- The footer-marker test (transcript-generator.js:187-193): the course
text, lower-cased then trimmed, starts with one of the three summary
markers. -/
def isFooterCourse (course : String) : Bool :=
  let courseLower := (jsTrim (lcaseStr course)).data
  isPre "total number of semester hours earned".data courseLower ||
  isPre "number of semester hours required for graduation".data courseLower ||
  isPre "cumulative grade point average".data courseLower

/-- Association-list lookup, as reading a property of a JS object built
below (keys are unique by construction). -/
def jsLookup (l : List (String × α)) (k : String) : Option α :=
  match l with
  | [] => none
  | (k', v) :: t => if k' = k then some v else jsLookup t k

/-- Key-membership test for the association lists modelling JS objects. -/
def containsKey (l : List (String × α)) (k : String) : Bool :=
  (jsLookup l k).isSome

/-- Append `c` to the list stored at key `k` (the bucket `push`; keys are
unique, so updating the first occurrence is the JS property update). -/
def pushKey : List (String × List CRec) → String → CRec → List (String × List CRec)
  | [], _, _ => []
  | (k', v) :: t, k, c => if k' = k then (k', v ++ [c]) :: t else (k', v) :: pushKey t k c

/-- The course list currently stored under `k` (empty when the key is
absent). -/
def bucketContents (l : List (String × List CRec)) (k : String) : List CRec :=
  (jsLookup l k).getD []

/-- State of the grouping fold (transcript-generator.js:159-160): the
`groupedData` object, kept as an insertion-ordered association list with
unique keys, and `currentSessionKey` (`none` = `null`). -/
abbrev GroupState := List (String × List CRec) × Option String

/-- Source: one iteration of the grouping fold
(transcript-generator.js:162-202).

```js
const rawVal = String(row.rawSem || "").trim();
...
const isTrulyBlankRow = !rawVal && !courseVal && !gradeVal && !hrsVal;
if (isTrulyBlankRow) { currentSessionKey = null; return; }
if (rawVal) { currentSessionKey = row.Sem.trim(); }
if (!currentSessionKey) { currentSessionKey = "NoSession"; }
if (!groupedData[currentSessionKey]) { groupedData[currentSessionKey] = []; }
const courseLower = row.Course.toLowerCase().trim();
if (!courseLower.startsWith(...) && ...) { groupedData[currentSessionKey].push({...}); }
```

`!currentSessionKey` is true both for `null` and for the empty string, so a
session row whose trimmed label is `""` also falls back to `"NoSession"`. -/
def stepGroup (st : GroupState) (row : PRec) : GroupState :=
  if isBlankRec row then (st.1, none)
  else
    let k1 : Option String := if jsTrim row.rawSem ≠ "" then some (jsTrim row.sem) else st.2
    let k2 : String :=
      match k1 with
      | none => "NoSession"
      | some s => if s = "" then "NoSession" else s
    let assoc1 := if containsKey st.1 k2 then st.1 else st.1 ++ [(k2, [])]
    if isFooterCourse row.course then (assoc1, some k2)
    else (pushKey assoc1 k2 (toCRec row), some k2)

/-- The grouping fold over the processed rows, started from an empty
object and a `null` session key. -/
def groupFold (rows : List PRec) : GroupState :=
  rows.foldl stepGroup ([], none)

/-- The `groupedData` object produced by the fold
(transcript-generator.js:159-202). -/
def groupedData (rows : List PRec) : List (String × List CRec) :=
  (groupFold rows).1

/-- The session key a non-blank record is processed under, given the
current-key state `ck`: the record's own trimmed canonical label when its
raw session cell is non-empty, else the carried key; a missing or empty
key falls back to the sentinel "NoSession" (`!currentSessionKey`). -/
def stepKey (ck : Option String) (r : PRec) : String :=
  match (if jsTrim r.rawSem ≠ "" then some (jsTrim r.sem) else ck) with
  | none => "NoSession"
  | some s => if s = "" then "NoSession" else s

/-- JS array-index property name: a canonical decimal string whose value
is below 2^32 - 1.  Such keys are enumerated before all other string keys,
in ascending numeric order. -/
def isArrayIdx (s : String) : Bool :=
  match s.data with
  | [] => false
  | c :: cs =>
    (c :: cs).all isDigitCh && (c ≠ '0' ∨ cs = []) && digitsToNat (c :: cs) < 4294967295

/-- Insert an entry into a list kept ascending by the numeric value of the
key (stable: an entry never passes an equal key; keys here are distinct
canonical numerals anyway). -/
def insertByKeyVal (p : String × α) : List (String × α) → List (String × α)
  | [] => [p]
  | q :: t => if digitsToNat p.1.data < digitsToNat q.1.data then p :: q :: t
              else q :: insertByKeyVal p t

/-- Sort entries ascending by numeric key value (insertion sort). -/
def sortByKeyVal : List (String × α) → List (String × α)
  | [] => []
  | p :: t => insertByKeyVal p (sortByKeyVal t)

/-- Embedding of `Object.entries` / `Object.keys` enumeration order for the
string-keyed objects built by this pipeline: array-index-like keys first in
ascending numeric order, then the remaining keys in insertion order. -/
def jsEntries (l : List (String × α)) : List (String × α) :=
  sortByKeyVal (l.filter (fun p => isArrayIdx p.1)) ++ l.filter (fun p => !isArrayIdx p.1)

/-- Key enumeration (`Object.keys`) of an object modelled as an
insertion-ordered association list. -/
def jsObjKeys (l : List (String × α)) : List String :=
  (jsEntries l).map Prod.fst

/-- Property assignment `obj[k] = v` on an insertion-ordered association
list: overwrite an existing key in place, otherwise append. -/
def jsAssign : List (String × α) → String → α → List (String × α)
  | [], k, v => [(k, v)]
  | (k', w) :: t, k, v => if k' = k then (k', v) :: t else (k', w) :: jsAssign t k v

/-- Source: building `academicYears` (transcript-generator.js:205-210).

```js
const academicYears = {};
Object.entries(groupedData).forEach(([sessionLabel, courses]) => {
  const { year } = getAcademicYear(sessionLabel);
  if (!academicYears[year]) academicYears[year] = {};
  academicYears[year][sessionLabel] = courses;
});
```
-/
def buildAcademicYears (g : List (String × List CRec)) :
    List (String × List (String × List CRec)) :=
  (jsEntries g).foldl
    (fun acc p =>
      let y := (getAcademicYear p.1).year
      let inner := (jsLookup acc y).getD []
      jsAssign acc y (jsAssign inner p.1 p.2))
    []

/-- Embedding of `parseInt(s, 10)`: skip leading whitespace, read an
optional sign and then a maximal run of decimal digits; `none` models
`NaN` (no digits). -/
def jsParseInt (s : String) : Option Int :=
  let l := dropWhite s.data
  let core : Option (Bool × List Char) :=
    match l with
    | '-' :: t => some (true, t)
    | '+' :: t => some (false, t)
    | t => some (false, t)
  match core with
  | some (neg, t) =>
    let ds := t.takeWhile isDigitCh
    if ds.length = 0 then none
    else some (if neg then -(digitsToNat ds : Int) else (digitsToNat ds : Int))
  | none => none

/-- Ascending stable sort on integers, embedding
`numericYears.sort((a, b) => a - b)` (which sorts numbers ascending). -/
def sortIntAsc (l : List Int) : List Int :=
  List.insertionSort (fun a b => a ≤ b) l

/-- Source: the year-ordering step (transcript-generator.js:369-381).

```js
const allYearKeys = Object.keys(academicYears).filter((y) => y !== "Unknown");
const numericYears = allYearKeys.map((y) => parseInt(y, 10)).filter((n) => !isNaN(n));
numericYears.sort((a, b) => a - b);
const sortedYears = numericYears.map(String);
const leftoverYearKeys = allYearKeys.filter((y) => isNaN(parseInt(y, 10)));
leftoverYearKeys.forEach((y) => sortedYears.push(y));
```

Takes the enumerated year-key list and returns `sortedYears`. -/
def sortYearKeys (keys : List String) : List String :=
  let allYearKeys := keys.filter (fun y => y ≠ "Unknown")
  let numericYears := (allYearKeys.map jsParseInt).filterMap id
  let sortedNums := sortIntAsc numericYears
  (sortedNums.map intToStr) ++ allYearKeys.filter (fun y => (jsParseInt y).isNone)

/-- The column selector passed to `getColumnLines` (the source passes the
property name as a string; the four names in use are enumerated). -/
inductive ColKey
  | course
  | catNo
  | grade
  | semHrs
deriving DecidableEq

/-- Property read `r[columnKey]` for the course records. -/
def colProj (k : ColKey) (r : CRec) : String :=
  match k with
  | ColKey.course => r.course
  | ColKey.catNo => r.catNo
  | ColKey.grade => r.grade
  | ColKey.semHrs => r.semHrs

/-- Source: `getColumnLines` (transcript-generator.js:105-107).

```js
return records.map((r) => String(r[columnKey] || "").trim()).filter(Boolean);
```

`filter(Boolean)` keeps exactly the non-empty strings. -/
def getColumnLines (records : List CRec) (columnKey : ColKey) : List String :=
  (records.map (fun r => jsTrim (colProj columnKey r))).filter (fun s => s ≠ "")

/-- A docx table cell as built by `multiLineCell`: the list of its paragraph
lines. -/
abbrev Cell := List String

/-- A docx table row: its ten cells. -/
abbrev Row := List Cell

/-- The header row (transcript-generator.js:352-367). -/
def headerRow : Row :=
  [["SESSION"], ["COURSE"], ["CAT. NO."], ["GRADE"], ["SEM. HRS."],
   ["SESSION"], ["COURSE"], ["CAT. NO."], ["GRADE"], ["SEM. HRS."]]

/-- The unconditional blank separator row
(transcript-generator.js:428-432): ten cells, each holding one empty
line. -/
def sepRow : Row := List.replicate 10 [""]

/-- One paired table row (transcript-generator.js:393-425).  `lk`/`rk` are
`leftKeys.shift() || null` and `rightKeys.shift() || null`; a `""` key is
falsy in JS, hence treated like `null` (it cannot occur: keys of
`sessionsObj` that pass the regex filters are non-empty).  The lookup
`sessionsObj[leftKey]` always succeeds because the keys come from
`Object.keys(sessionsObj)`; `getD []` records that. -/
def mkPairRow (sObj : List (String × List CRec)) (lk rk : Option String) : Row :=
  let lkE := match lk with
             | some k => if k = "" then none else some k
             | none => none
  let rkE := match rk with
             | some k => if k = "" then none else some k
             | none => none
  let leftCourses := match lkE with
                     | some k => (jsLookup sObj k).getD []
                     | none => []
  let rightCourses := match rkE with
                      | some k => (jsLookup sObj k).getD []
                      | none => []
  [[(lkE.getD "")],
   getColumnLines leftCourses ColKey.course,
   getColumnLines leftCourses ColKey.catNo,
   getColumnLines leftCourses ColKey.grade,
   getColumnLines leftCourses ColKey.semHrs,
   [(rkE.getD "")],
   getColumnLines rightCourses ColKey.course,
   getColumnLines rightCourses ColKey.catNo,
   getColumnLines rightCourses ColKey.grade,
   getColumnLines rightCourses ColKey.semHrs]

/-- Source: the pairing loop (transcript-generator.js:393-433).

```js
while (leftKeys.length > 0 || rightKeys.length > 0) {
  const leftKey = leftKeys.shift() || null;
  const rightKey = rightKeys.shift() || null;
  ... rows.push(new TableRow({...}));       // the paired row
  rows.push(new TableRow({... ten blank cells ...}));  // the separator
}
```
-/
def pairRight (sObj : List (String × List CRec)) : List String → List Row
  | [] => []
  | r :: rs => mkPairRow sObj none (some r) :: sepRow :: pairRight sObj rs

/-- The pairing loop itself: pop one key from each side while any remain
(structural on the left list, with `pairRight` finishing a drained left
side). -/
def pairLoop (sObj : List (String × List CRec)) :
    List String → List String → List Row
  | [], rs => pairRight sObj rs
  | l :: ls, [] => mkPairRow sObj (some l) none :: sepRow :: pairLoop sObj ls []
  | l :: ls, r :: rs => mkPairRow sObj (some l) (some r) :: sepRow :: pairLoop sObj ls rs

/-- The `leftRegex` filter `(Aug|Sep|Oct|Nov|Dec)-(\d{2,4})\s+Sem\s*I/i.test`
(transcript-generator.js:387,390). -/
def leftTest (s : String) : Bool := (scanSemI s).isSome

/-- The `rightRegex` filter `(Jan|Feb|Mar|Apr|May|Jun)-(\d{2,4})\s+Sem\s*II/i.test`
(transcript-generator.js:388,391). -/
def rightTest (s : String) : Bool := (scanSemII s).isSome

/-- The rows contributed by one year (transcript-generator.js:383-434).
`academicYears[yearStr]` can be `undefined` when `yearStr` is the
`String(parseInt(key))` normalisation of a non-canonical numeric key; the
source then throws at `Object.keys(sessionsObj)` (aborting the whole
generation), which `none` models. -/
def rowsForYear (ay : List (String × List (String × List CRec))) (yearStr : String) :
    Option (List Row) :=
  match jsLookup ay yearStr with
  | none => none
  | some sObj =>
    let sessionLabels := jsObjKeys sObj
    some (pairLoop sObj (sessionLabels.filter leftTest) (sessionLabels.filter rightTest))

/-- The concatenated year blocks, in `sortedYears` order. -/
def buildBody (ay : List (String × List (String × List CRec))) :
    List String → Option (List Row)
  | [] => some []
  | y :: ys =>
    match rowsForYear ay y with
    | none => none
    | some h =>
      match buildBody ay ys with
      | none => none
      | some t => some (h ++ t)

/-- The full transcript table built from `groupedData`
(transcript-generator.js:349-434): the header row followed by the year
blocks for `sortedYears`.  `none` models the exception thrown on a missing
`sessionsObj` (in which case no document is produced). -/
def buildTable (g : List (String × List CRec)) : Option (List Row) :=
  let ay := buildAcademicYears g
  let sortedYears := sortYearKeys (jsObjKeys ay)
  match buildBody ay sortedYears with
  | none => none
  | some body => some (headerRow :: body)

/-- A whitespace character is not a digit: the `\s` and `\d` classes are
disjoint. -/
theorem white_not_digit {c : Char} (h : isWhite c = true) : isDigitCh c = false := by
  unfold isWhite at h
  unfold isDigitCh
  simp only [Bool.or_eq_true, beq_iff_eq, Bool.and_eq_true, decide_eq_true_eq] at h
  simp only [Bool.and_eq_false_iff, decide_eq_false_iff_not, not_le]
  omega

/-- A digit character is not whitespace. -/
theorem digit_not_white {c : Char} (h : isDigitCh c = true) : isWhite c = false := by
  unfold isDigitCh at h
  unfold isWhite
  simp only [Bool.and_eq_true, decide_eq_true_eq] at h
  simp only [Bool.or_eq_false_iff, Bool.and_eq_false_iff, beq_eq_false_iff_ne, ne_eq,
    decide_eq_false_iff_not, not_le]
  omega

/-- `takeWhile` over a maximal satisfying run: the run itself. -/
theorem takeWhile_run {p : Char → Bool} :
    ∀ (d : List Char), (∀ c ∈ d, p c = true) →
    ∀ (x : Char) (r : List Char), p x = false →
    (d ++ x :: r).takeWhile p = d := by
  intro d hd x r hx
  induction d with
  | nil => simp [List.takeWhile_cons, hx]
  | cons a t ih =>
    have ha : p a = true := hd a (by simp)
    simp only [List.cons_append, List.takeWhile_cons, ha]
    simp only [ite_true]
    rw [ih (fun c hc => hd c (by simp [hc]))]

/-- `dropWhile` over a maximal satisfying run: everything after the run. -/
theorem dropWhile_run {p : Char → Bool} :
    ∀ (d : List Char), (∀ c ∈ d, p c = true) →
    ∀ (x : Char) (r : List Char), p x = false →
    (d ++ x :: r).dropWhile p = x :: r := by
  intro d hd x r hx
  induction d with
  | nil => simp [List.dropWhile_cons, hx]
  | cons a t ih =>
    have ha : p a = true := hd a (by simp)
    simp only [List.cons_append, List.dropWhile_cons, ha]
    simp only [ite_true]
    exact ih (fun c hc => hd c (by simp [hc]))

/-- `takeWhile` of a fully satisfying list is the list itself. -/
theorem takeWhile_all {p : Char → Bool} :
    ∀ (d : List Char), (∀ c ∈ d, p c = true) → d.takeWhile p = d := by
  intro d hd
  induction d with
  | nil => rfl
  | cons a t ih =>
    have ha : p a = true := hd a (by simp)
    simp only [List.takeWhile_cons, ha, ite_true]
    rw [ih (fun c hc => hd c (by simp [hc]))]

/-- `dropWhile` of a fully satisfying list is empty. -/
theorem dropWhile_all {p : Char → Bool} :
    ∀ (d : List Char), (∀ c ∈ d, p c = true) → d.dropWhile p = [] := by
  intro d hd
  induction d with
  | nil => rfl
  | cons a t ih =>
    have ha : p a = true := hd a (by simp)
    simp only [List.dropWhile_cons, ha, ite_true]
    exact ih (fun c hc => hd c (by simp [hc]))

/-- C8 counterexample.  The claim says any trimmed input with a leading
all-digits token followed by whitespace is split into (digits, remainder);
but for `"12 a\nb"` the source regex `^(\d+)\s+(.*)$` fails (`.` does not
match the embedded line feed and `$` only matches at the end of input), so
the function returns `("", "12 a\nb")`, not `("12", "a\nb")`. -/
theorem C8_counterexample :
    splitCatNoAndCourse "12 a\nb" = ("", "12 a\nb") ∧
    splitCatNoAndCourse "12 a\nb" ≠ ("12", "a\nb") := by
  constructor
  · rfl
  · decide

/-- C8 (amended): `splitCatNoAndCourse` is total, and:
if the trimmed input decomposes as a (maximal) non-empty digit run,
followed by a (maximal) non-empty whitespace run, followed by a remainder
free of line terminators, it returns (digit run, remainder); with the same
decomposition but a line terminator somewhere in the remainder it returns
`("", trimmed input)`; when the trimmed input does not start with a digit
it returns `("", trimmed input)`; and when the whitespace is missing — the
(maximal) leading digit run is followed by end of input or by a
non-whitespace character — it also returns `("", trimmed input)`. -/
theorem C8_splitCatNoAndCourse_amended :
    (∀ (value : String) (d w r : List Char),
      (jsTrim value).data = d ++ w ++ r →
      d ≠ [] → (∀ c ∈ d, isDigitCh c = true) →
      w ≠ [] → (∀ c ∈ w, isWhite c = true) →
      (∀ c, r.head? = some c → isWhite c = false) →
      (∀ c ∈ r, isLineTerm c = false) →
      splitCatNoAndCourse value = (String.mk d, String.mk r)) ∧
    (∀ (value : String) (d w r : List Char),
      (jsTrim value).data = d ++ w ++ r →
      d ≠ [] → (∀ c ∈ d, isDigitCh c = true) →
      w ≠ [] → (∀ c ∈ w, isWhite c = true) →
      (∀ c, r.head? = some c → isWhite c = false) →
      (∃ c ∈ r, isLineTerm c = true) →
      splitCatNoAndCourse value = ("", jsTrim value)) ∧
    (∀ (value : String),
      (∀ c, (jsTrim value).data.head? = some c → isDigitCh c = false) →
      splitCatNoAndCourse value = ("", jsTrim value)) ∧
    (∀ (value : String) (d r : List Char),
      (jsTrim value).data = d ++ r →
      d ≠ [] → (∀ c ∈ d, isDigitCh c = true) →
      (∀ c, r.head? = some c → isDigitCh c = false ∧ isWhite c = false) →
      splitCatNoAndCourse value = ("", jsTrim value)) := by
  have keyTake : ∀ (d w r : List Char),
      (∀ c ∈ d, isDigitCh c = true) →
      w ≠ [] → (∀ c ∈ w, isWhite c = true) →
      (∀ c, r.head? = some c → isWhite c = false) →
      (d ++ w ++ r).takeWhile isDigitCh = d ∧
      (d ++ w ++ r).dropWhile isDigitCh = w ++ r ∧
      (w ++ r).takeWhile isWhite = w ∧
      (w ++ r).dropWhile isWhite = r := by
    intro d w r hd hw hwall hr
    match w, hw with
    | wh :: wt, _ =>
      have hwh : isWhite wh = true := hwall wh (by simp)
      have hwt : ∀ c ∈ wt, isWhite c = true := fun c hc => hwall c (by simp [hc])
      have h1 : (d ++ (wh :: wt) ++ r).takeWhile isDigitCh = d := by
        rw [List.append_assoc]
        exact takeWhile_run d hd wh (wt ++ r) (white_not_digit hwh)
      have h2 : (d ++ (wh :: wt) ++ r).dropWhile isDigitCh = (wh :: wt) ++ r := by
        rw [List.append_assoc]
        exact dropWhile_run d hd wh (wt ++ r) (white_not_digit hwh)
      refine ⟨h1, h2, ?_, ?_⟩
      · match r, hr with
        | [], _ => simpa using takeWhile_all (wh :: wt) hwall
        | rh :: rt, hr =>
          exact takeWhile_run (wh :: wt) hwall rh rt (hr rh rfl)
      · match r, hr with
        | [], _ => simpa using dropWhile_all (wh :: wt) hwall
        | rh :: rt, hr =>
          exact dropWhile_run (wh :: wt) hwall rh rt (hr rh rfl)
  refine ⟨?_, ?_, ?_, ?_⟩
  · intro value d w r ht hd hdall hw hwall hr hnol
    obtain ⟨h1, h2, h3, h4⟩ := keyTake d w r hdall hw hwall hr
    simp only [splitCatNoAndCourse]
    rw [ht, h1, h2, h3, h4]
    rw [if_pos]
    refine ⟨by simpa [Nat.one_le_iff_ne_zero] using hd, by simpa [Nat.one_le_iff_ne_zero] using hw, ?_⟩
    simp only [List.all_eq_true, Bool.not_eq_true']
    exact hnol
  · intro value d w r ht hd hdall hw hwall hr hlt
    obtain ⟨h1, h2, h3, h4⟩ := keyTake d w r hdall hw hwall hr
    simp only [splitCatNoAndCourse]
    rw [ht, h1, h2, h3, h4]
    rw [if_neg]
    intro ⟨_, _, hall⟩
    simp only [List.all_eq_true, Bool.not_eq_true'] at hall
    obtain ⟨c, hc, hct⟩ := hlt
    rw [hall c hc] at hct
    exact Bool.false_ne_true hct
  · intro value hhead
    simp only [splitCatNoAndCourse]
    match hm : (jsTrim value).data with
    | [] => simp
    | c :: t =>
      have hc : isDigitCh c = false := hhead c (by rw [hm]; rfl)
      rw [List.takeWhile_cons, hc]
      simp
  · intro value d r ht hd hdall hr
    simp only [splitCatNoAndCourse]
    cases r with
    | nil =>
      rw [List.append_nil] at ht
      rw [ht, takeWhile_all d hdall, dropWhile_all d hdall]
      rw [if_neg (fun hcond => by
        obtain ⟨_, h2, _⟩ := hcond
        simp at h2)]
    | cons rh rt =>
      have hrh := hr rh rfl
      rw [ht, takeWhile_run d hdall rh rt hrh.1, dropWhile_run d hdall rh rt hrh.1]
      rw [if_neg (fun hcond => by
        obtain ⟨_, h2, _⟩ := hcond
        rw [List.takeWhile_cons, hrh.2] at h2
        simp at h2)]

/-- C8 witness: the amended split theorem applied at the concrete inputs
`"123 Intro"` (successful split) and `"12abc"` (digit run with the
whitespace missing, falling back to the trimmed input). -/
theorem C8_witness :
    splitCatNoAndCourse "123 Intro" = ("123", "Intro") ∧
    splitCatNoAndCourse "12abc" = ("", "12abc") := by
  constructor
  · exact C8_splitCatNoAndCourse_amended.1 "123 Intro"
      ['1', '2', '3'] [' '] ['I', 'n', 't', 'r', 'o']
      (by decide) (by decide) (by decide) (by decide) (by decide) (by decide) (by decide)
  · have h := C8_splitCatNoAndCourse_amended.2.2.2 "12abc"
      ['1', '2'] ['a', 'b', 'c'] (by decide) (by decide) (by decide) (by decide)
    rw [h]
    rfl

/-- C2: evaluation at the failing input.  A bucket holding one course
record whose category-number field is empty: the claim (and the comment on
`getColumnLines` itself, "one for each record") requires every column of
the emitted cell group to hold exactly one line, but `filter(Boolean)`
drops the empty category-number line, so the category column holds zero
lines while the course column holds one: the columns are no longer aligned
line-for-line. -/
theorem C2_failing_input :
    let rec1 : CRec := ⟨"Theology", "", "B+", "3"⟩
    let sObj : List (String × List CRec) := [("Aug-18 Sem I", [rec1])]
    getColumnLines [rec1] ColKey.course = ["Theology"] ∧
    getColumnLines [rec1] ColKey.catNo = [] ∧
    [rec1].length = 1 ∧
    (getColumnLines [rec1] ColKey.catNo).length ≠ [rec1].length ∧
    mkPairRow sObj (some "Aug-18 Sem I") none =
      [["Aug-18 Sem I"], ["Theology"], [], ["B+"], ["3"], [""], [], [], [], []] := by
  refine ⟨rfl, rfl, rfl, by decide, rfl⟩

/-- C5: `formatSession` returns the canonical label
`"{MonAbbrev}-{YY} Sem {I|II}"` when the date oracle parses the value —
months January through June (0-based months 0-5) give "Sem II", all other
months including July give "Sem I" — and returns the input string unchanged
when the oracle does not. -/
theorem C5_formatSession_spec :
    ∀ (parseDate : String → Option JSDate) (value : String),
      (parseDate value = none → formatSession parseDate value = value) ∧
      (∀ d : JSDate, parseDate value = some d →
        (d.month.val ≤ 5 →
          formatSession parseDate value =
            monthShortName d.month ++ "-" ++ sliceLastTwo (toString d.fullYear) ++ " Sem II") ∧
        (5 < d.month.val →
          formatSession parseDate value =
            monthShortName d.month ++ "-" ++ sliceLastTwo (toString d.fullYear) ++ " Sem I")) := by
  intro parseDate value
  constructor
  · intro h
    simp [formatSession, h]
  · intro d hd
    have hmem : ∀ m : Fin 12,
        (["Jan", "Feb", "Mar", "Apr", "May", "Jun"].contains (monthShortName m)) =
          decide (m.val ≤ 5) := by
      intro m
      fin_cases m <;> decide
    constructor
    · intro h5
      simp only [formatSession, hd, hmem]
      simp [h5, String.append_assoc]
    · intro h5
      have : ¬ d.month.val ≤ 5 := Nat.not_le_of_lt h5
      simp only [formatSession, hd, hmem]
      simp [this, String.append_assoc]

/-- C5 witness: the specification applied at a concrete oracle and value,
covering a parsed July 2018 date (Sem I), a parsed January 2018 date
(Sem II) and an unparseable value. -/
theorem C5_witness :
    formatSession (fun _ => some ⟨⟨6, by decide⟩, 2018⟩) "x" = "Jul-18 Sem I" ∧
    formatSession (fun _ => some ⟨⟨0, by decide⟩, 2018⟩) "x" = "Jan-18 Sem II" ∧
    formatSession (fun _ => none) "Fall 2018" = "Fall 2018" := by
  refine ⟨?_, ?_, ?_⟩
  · have h := (C5_formatSession_spec (fun _ => some ⟨⟨6, by decide⟩, 2018⟩) "x").2
      ⟨⟨6, by decide⟩, 2018⟩ rfl
    rw [h.2 (by decide)]
    rfl
  · have h := (C5_formatSession_spec (fun _ => some ⟨⟨0, by decide⟩, 2018⟩) "x").2
      ⟨⟨0, by decide⟩, 2018⟩ rfl
    rw [h.1 (by decide)]
    rfl
  · exact (C5_formatSession_spec (fun _ => none) "Fall 2018").1 rfl

/-- Lookup distributes over appended association lists. -/
theorem jsLookup_append {α : Type} :
    ∀ (a m : List (String × α)) (k : String),
      jsLookup (a ++ m) k =
        match jsLookup a k with
        | some v => some v
        | none => jsLookup m k := by
  intro a m k
  induction a with
  | nil => rfl
  | cons p t ih =>
    by_cases h : p.1 = k
    · simp [jsLookup, h]
    · simp only [List.cons_append, jsLookup, if_neg h]
      exact ih

/-- Creating a (fresh, empty) key leaves every other key's lookup
unchanged. -/
theorem createKey_lookup_ne {k k2 : String} (h : k ≠ k2)
    (a : List (String × List CRec)) :
    jsLookup (if containsKey a k2 then a else a ++ [(k2, [])]) k = jsLookup a k := by
  by_cases hc : containsKey a k2 = true
  · rw [if_pos hc]
  · rw [if_neg hc, jsLookup_append]
    match hl : jsLookup a k with
    | some v => rfl
    | none =>
      simp only [jsLookup, if_neg (fun hh : k2 = k => h hh.symm)]

/-- Creating a (fresh, empty) key changes no bucket's contents. -/
theorem createKey_contents (a : List (String × List CRec)) (k2 k : String) :
    bucketContents (if containsKey a k2 then a else a ++ [(k2, [])]) k =
      bucketContents a k := by
  by_cases hc : containsKey a k2 = true
  · rw [if_pos hc]
  · rw [if_neg hc]
    unfold bucketContents
    rw [jsLookup_append]
    match hl : jsLookup a k with
    | some v => rfl
    | none =>
      by_cases hk : k2 = k
      · simp [jsLookup, hk]
      · simp [jsLookup, hk]

/-- The key-creation step makes the key present. -/
theorem containsKey_create (a : List (String × List CRec)) (k2 : String) :
    containsKey (if containsKey a k2 then a else a ++ [(k2, [])]) k2 = true := by
  by_cases hc : containsKey a k2 = true
  · rw [if_pos hc]; exact hc
  · rw [if_neg hc]
    unfold containsKey at hc ⊢
    rw [jsLookup_append]
    match hl : jsLookup a k2 with
    | some v => rw [hl] at hc; simp at hc
    | none => simp [jsLookup]

/-- Pushing under one key leaves every other key's lookup unchanged. -/
theorem pushKey_lookup_ne {k k2 : String} (h : k ≠ k2)
    (l : List (String × List CRec)) (c : CRec) :
    jsLookup (pushKey l k2 c) k = jsLookup l k := by
  induction l with
  | nil => rfl
  | cons p t ih =>
    obtain ⟨k', v⟩ := p
    by_cases hp : k' = k2
    · have hk : ¬ k' = k := fun hh => h (hh.symm.trans hp)
      simp only [pushKey, if_pos hp, jsLookup, if_neg hk]
    · simp only [pushKey, if_neg hp, jsLookup]
      by_cases hpk : k' = k
      · simp only [if_pos hpk]
      · simp only [if_neg hpk]; exact ih

/-- Pushing appends to the stored list of a present key. -/
theorem pushKey_contents_self (l : List (String × List CRec)) (k2 : String) (c : CRec)
    (h : containsKey l k2 = true) :
    bucketContents (pushKey l k2 c) k2 = bucketContents l k2 ++ [c] := by
  induction l with
  | nil => simp [containsKey, jsLookup] at h
  | cons p t ih =>
    obtain ⟨k', v⟩ := p
    by_cases hp : k' = k2
    · simp only [pushKey, if_pos hp, bucketContents, jsLookup, Option.getD_some]
    · have h2 : containsKey t k2 = true := by
        simpa [containsKey, jsLookup, if_neg hp] using h
      simp only [pushKey, if_neg hp, bucketContents, jsLookup, if_neg hp]
      exact ih h2

/-- C6: a truly blank record (all four trimmed business fields empty)
appends nothing to any bucket and resets the current-session pointer to
`none`; and a subsequent non-blank record with empty trimmed raw session,
processed while the pointer is `none`, is processed under the sentinel key
"NoSession": the pointer becomes `some "NoSession"` and (unless the course
text is a footer marker, which 4.3's footer rule excludes from every
bucket) its course fields are appended to the "NoSession" bucket. -/
theorem C6_blank_boundary_and_nosession :
    (∀ (st : GroupState) (r : PRec), isBlankRec r = true → stepGroup st r = (st.1, none)) ∧
    (∀ (a : List (String × List CRec)) (r : PRec),
      isBlankRec r = false → jsTrim r.rawSem = "" →
      (stepGroup (a, none) r).2 = some "NoSession" ∧
      (isFooterCourse r.course = false →
        bucketContents (stepGroup (a, none) r).1 "NoSession" =
          bucketContents a "NoSession" ++ [toCRec r])) := by
  constructor
  · intro st r hb
    simp [stepGroup, hb]
  · intro a r hb hraw
    by_cases hf : isFooterCourse r.course = true
    · have hstep : stepGroup (a, none) r =
          ((if containsKey a "NoSession" then a else a ++ [("NoSession", [])]),
            some "NoSession") := by
        simp [stepGroup, hb, hraw, hf]
      refine ⟨by rw [hstep], fun hf2 => absurd hf (by simp [hf2])⟩
    · have hf2 : isFooterCourse r.course = false := by simpa using hf
      have hstep : stepGroup (a, none) r =
          (pushKey (if containsKey a "NoSession" then a else a ++ [("NoSession", [])])
            "NoSession" (toCRec r), some "NoSession") := by
        simp [stepGroup, hb, hraw, hf2]
      refine ⟨by rw [hstep], fun _ => ?_⟩
      rw [hstep]
      show bucketContents
        (pushKey (if containsKey a "NoSession" then a else a ++ [("NoSession", [])])
          "NoSession" (toCRec r)) "NoSession" = bucketContents a "NoSession" ++ [toCRec r]
      rw [pushKey_contents_self _ _ _ (containsKey_create a "NoSession"),
        createKey_contents]

/-- C6 witness: the boundary and sentinel behaviour at concrete records (a
blank record under an active session, then an orphan continuation row). -/
theorem C6_witness :
    stepGroup ([("Aug-18 Sem I", [])], some "Aug-18 Sem I") ⟨"", "", "", "", "", ""⟩ =
      ([("Aug-18 Sem I", [])], none) ∧
    (stepGroup ([], none) ⟨"", "", "Orphan Course", "7", "C", "2"⟩).2 = some "NoSession" ∧
    bucketContents (stepGroup ([], none) ⟨"", "", "Orphan Course", "7", "C", "2"⟩).1
      "NoSession" = [⟨"Orphan Course", "7", "C", "2"⟩] := by
  refine ⟨C6_blank_boundary_and_nosession.1 _ _ (by decide), ?_, ?_⟩
  · exact (C6_blank_boundary_and_nosession.2 [] ⟨"", "", "Orphan Course", "7", "C", "2"⟩
      (by decide) (by decide)).1
  · have h := (C6_blank_boundary_and_nosession.2 [] ⟨"", "", "Orphan Course", "7", "C", "2"⟩
      (by decide) (by decide)).2 (by decide)
    rw [h]
    rfl

/-- C7: a record whose course text (lower-cased, trimmed) starts with one
of the three footer markers leaves the contents of every bucket unchanged
at its grouping step — it is never appended as a course entry. -/
theorem C7_footer_excluded :
    ∀ (st : GroupState) (r : PRec) (k : String),
      isFooterCourse r.course = true →
      bucketContents (stepGroup st r).1 k = bucketContents st.1 k := by
  intro st r k hf
  by_cases hb : isBlankRec r = true
  · simp [stepGroup, hb]
  · have hb2 : isBlankRec r = false := by simpa using hb
    simp only [stepGroup, hb2, Bool.false_eq_true, if_false, hf, if_true]
    exact createKey_contents st.1 _ k

/-- C7 witness: a cumulative-GPA footer record under an active session
leaves its bucket untouched. -/
theorem C7_witness :
    bucketContents
      (stepGroup ([("Aug-18 Sem I", [⟨"Intro to Bible", "101", "A", "3"⟩])], some "Aug-18 Sem I")
        ⟨"", "", "Cumulative Grade Point Average: 3.2", "", "", ""⟩).1
      "Aug-18 Sem I" = [⟨"Intro to Bible", "101", "A", "3"⟩] := by
  have h := C7_footer_excluded
    ([("Aug-18 Sem I", [⟨"Intro to Bible", "101", "A", "3"⟩])], some "Aug-18 Sem I")
    ⟨"", "", "Cumulative Grade Point Average: 3.2", "", "", ""⟩
    "Aug-18 Sem I" (by decide)
  rw [h]
  rfl

/-- On a non-blank record, the grouping step creates (if necessary) the
bucket for `stepKey`, pushes the course fields unless the course text is a
footer marker, and stores `stepKey` as the new current key. -/
theorem stepGroup_nonblank (a : List (String × List CRec)) (ck : Option String)
    (r : PRec) (hb : isBlankRec r = false) :
    stepGroup (a, ck) r =
      (if isFooterCourse r.course
        then ((if containsKey a (stepKey ck r) then a else a ++ [(stepKey ck r, [])]),
          some (stepKey ck r))
        else (pushKey
            (if containsKey a (stepKey ck r) then a else a ++ [(stepKey ck r, [])])
            (stepKey ck r) (toCRec r),
          some (stepKey ck r))) := by
  simp only [stepGroup, stepKey, hb, Bool.false_eq_true, if_false]

/-- A record that does not re-establish the session label `k` is processed
under a key different from `k` (with `k` not the sentinel and not the
carried key). -/
theorem stepKey_ne {k : String} (hk : k ≠ "NoSession") (ck : Option String) (r : PRec)
    (hck : ck ≠ some k) (hy : ¬(jsTrim r.rawSem ≠ "" ∧ jsTrim r.sem = k)) :
    stepKey ck r ≠ k := by
  unfold stepKey
  by_cases hraw : jsTrim r.rawSem ≠ ""
  · rw [if_pos hraw]
    show (if jsTrim r.sem = "" then "NoSession" else jsTrim r.sem) ≠ k
    by_cases hse : jsTrim r.sem = ""
    · rw [if_pos hse]; exact fun hh => hk hh.symm
    · rw [if_neg hse]; exact fun hh => hy ⟨hraw, hh⟩
  · rw [if_neg hraw]
    match ck, hck with
    | none, _ =>
      show "NoSession" ≠ k
      exact fun hh => hk hh.symm
    | some s, hck2 =>
      show (if s = "" then "NoSession" else s) ≠ k
      by_cases hse : s = ""
      · rw [if_pos hse]; exact fun hh => hk hh.symm
      · rw [if_neg hse]; exact fun hh => hck2 (by rw [hh])

/-- Key-preservation invariant of the grouping fold: starting from a state
whose current key is not `k`, folding records none of which re-establishes
the session label `k` (with `k` not the sentinel) never touches the entry
stored under `k`. -/
theorem groupFold_preserve (k : String) (hk : k ≠ "NoSession") :
    ∀ (ys : List PRec) (a : List (String × List CRec)) (ck : Option String),
      ck ≠ some k →
      (∀ y ∈ ys, ¬(jsTrim y.rawSem ≠ "" ∧ jsTrim y.sem = k)) →
      jsLookup (ys.foldl stepGroup (a, ck)).1 k = jsLookup a k := by
  intro ys
  induction ys with
  | nil => intro a ck _ _; rfl
  | cons y t ih =>
    intro a ck hck hys
    have hy : ¬(jsTrim y.rawSem ≠ "" ∧ jsTrim y.sem = k) := hys y (by simp)
    have ht : ∀ z ∈ t, ¬(jsTrim z.rawSem ≠ "" ∧ jsTrim z.sem = k) :=
      fun z hz => hys z (by simp [hz])
    rw [List.foldl_cons]
    by_cases hb : isBlankRec y = true
    · have hstep : stepGroup (a, ck) y = (a, none) := by simp [stepGroup, hb]
      rw [hstep]
      exact ih a none (by simp) ht
    · have hb2 : isBlankRec y = false := by simpa using hb
      have hkne : stepKey ck y ≠ k := stepKey_ne hk ck y hck hy
      have hassoc : jsLookup
          (if containsKey a (stepKey ck y) then a else a ++ [(stepKey ck y, [])]) k =
          jsLookup a k :=
        createKey_lookup_ne (fun hh => hkne hh.symm) a
      rw [stepGroup_nonblank a ck y hb2]
      by_cases hf : isFooterCourse y.course = true
      · rw [if_pos hf]
        rw [ih _ (some (stepKey ck y)) (by simpa using hkne) ht]
        exact hassoc
      · rw [if_neg hf]
        rw [ih _ (some (stepKey ck y)) (by simpa using hkne) ht]
        rw [pushKey_lookup_ne (fun hh => hkne hh.symm)]
        exact hassoc

/-- C4 counterexample.  A session boundary does not close a bucket: after
the blank row resets the pointer, a later row whose session canonicalises
to the same label "Aug-18 Sem I" is appended to the very same bucket, so
the bucket holds both courses. -/
theorem C4_counterexample :
    groupedData
      [⟨"x", "Aug-18 Sem I", "CourseOne", "1", "A", "3"⟩,
       ⟨"", "", "", "", "", ""⟩,
       ⟨"y", "Aug-18 Sem I", "CourseTwo", "2", "B", "3"⟩] =
      [("Aug-18 Sem I", [⟨"CourseOne", "1", "A", "3"⟩, ⟨"CourseTwo", "2", "B", "3"⟩])] ∧
    (⟨"CourseTwo", "2", "B", "3"⟩ : CRec) ∈
      bucketContents
        (groupedData
          [⟨"x", "Aug-18 Sem I", "CourseOne", "1", "A", "3"⟩,
           ⟨"", "", "", "", "", ""⟩,
           ⟨"y", "Aug-18 Sem I", "CourseTwo", "2", "B", "3"⟩]) "Aug-18 Sem I" := by
  refine ⟨by rfl, by decide⟩

/-- C4 (amended): once a session-boundary record resets the
current-session pointer, no record after the boundary is appended to a
bucket whose key `k` was in use before it, unless a later row
re-establishes that very key — a non-blank row whose trimmed raw session
is non-empty and whose trimmed canonical label equals `k` (the sentinel
bucket "NoSession" is likewise excluded, as any orphan continuation row
reopens it). -/
theorem C4_bucket_closed_amended :
    ∀ (xs : List PRec) (b : PRec) (ys : List PRec) (k : String),
      isBlankRec b = true →
      k ≠ "NoSession" →
      (∀ y ∈ ys, ¬(jsTrim y.rawSem ≠ "" ∧ jsTrim y.sem = k)) →
      jsLookup (groupedData (xs ++ b :: ys)) k = jsLookup (groupedData xs) k := by
  intro xs b ys k hb hk hys
  unfold groupedData groupFold
  rw [List.foldl_append, List.foldl_cons]
  have hstep : stepGroup (xs.foldl stepGroup ([], none)) b =
      ((xs.foldl stepGroup ([], none)).1, none) := by
    simp [stepGroup, hb]
  rw [hstep]
  exact groupFold_preserve k hk ys (xs.foldl stepGroup ([], none)).1 none (by simp) hys

/-- C4 witness: the amended closure theorem at a concrete sequence — after
the boundary, rows of a different session leave the closed bucket
untouched. -/
theorem C4_witness :
    jsLookup
      (groupedData
        [⟨"x", "Aug-18 Sem I", "CourseOne", "1", "A", "3"⟩,
         ⟨"", "", "", "", "", ""⟩,
         ⟨"y", "Jan-19 Sem II", "CourseTwo", "2", "B", "3"⟩]) "Aug-18 Sem I" =
    jsLookup (groupedData [⟨"x", "Aug-18 Sem I", "CourseOne", "1", "A", "3"⟩])
      "Aug-18 Sem I" := by
  exact C4_bucket_closed_amended
    [⟨"x", "Aug-18 Sem I", "CourseOne", "1", "A", "3"⟩]
    ⟨"", "", "", "", "", ""⟩
    [⟨"y", "Jan-19 Sem II", "CourseTwo", "2", "B", "3"⟩]
    "Aug-18 Sem I" (by decide) (by decide) (by decide)

/-- The decimal rendering of a natural number starts with a digit. -/
theorem natToStrAux_head :
    ∀ (fuel n : Nat), n < fuel →
      ∃ c t, (natToStrAux fuel n).data = c :: t ∧ isDigitCh c = true := by
  intro fuel
  induction fuel with
  | zero => intro n hn; omega
  | succ f ih =>
    intro n hn
    by_cases h : n < 10
    · refine ⟨Char.ofNat (48 + n), [], ?_, ?_⟩
      · simp [natToStrAux, h]
      · interval_cases n <;> decide
    · have hdiv : n / 10 < f := by
        have h1 : n / 10 < n := Nat.div_lt_self (by omega) (by decide)
        omega
      obtain ⟨c, t, hct, hc⟩ := ih (n / 10) hdiv
      refine ⟨c, t ++ (String.mk [Char.ofNat (48 + n % 10)]).data, ?_, hc⟩
      simp only [natToStrAux, h, if_false]
      rw [String.data_append, hct]
      rfl

/-- The decimal rendering of a natural number starts with a digit. -/
theorem natToStr_head :
    ∀ n : Nat, ∃ c t, (natToStr n).data = c :: t ∧ isDigitCh c = true := by
  intro n
  exact natToStrAux_head (n + 1) n (Nat.lt_succ_self n)

/-- No integer renders to the string "Unknown". -/
theorem intToStr_ne_unknown (n : Int) : intToStr n ≠ "Unknown" := by
  intro h
  unfold intToStr at h
  by_cases hn : n < 0
  · rw [if_pos hn] at h
    have hd := congrArg String.data h
    rw [String.data_append] at hd
    obtain ⟨c, t, hct, _⟩ := natToStr_head n.natAbs
    rw [hct] at hd
    exact absurd (List.head_eq_of_cons_eq hd) (by decide)
  · rw [if_neg hn] at h
    obtain ⟨c, t, hct, hc⟩ := natToStr_head n.natAbs
    have hd := congrArg String.data h
    rw [hct] at hd
    have hcu : c = 'U' := List.head_eq_of_cons_eq hd
    rw [hcu] at hc
    exact absurd hc (by decide)

/-- C3 counterexample.  An "Unknown" year key is not retained for a later
append: `sortYearKeys` drops it entirely, and a bucket whose label
classifies to "Unknown" (here "Foo") contributes nothing to the emitted
table — the table is just the header row, refuting "buckets classified
Unknown still appear in the emitted table". -/
theorem C3_counterexample :
    sortYearKeys ["Unknown"] = [] ∧
    (getAcademicYear "Foo").year = "Unknown" ∧
    buildTable [("Foo", [⟨"Course A", "1", "B", "3"⟩])] = some [headerRow] := by
  refine ⟨rfl, rfl, rfl⟩

/-- C3 (amended): the Year Pairer's ordering of `sortedYears`: year keys
parseable as integers appear first — rendered back to canonical decimal
strings — sorted numerically ascending (a permutation of the parsed
values); non-parseable year keys other than "Unknown" follow in their
original encountered order; and "Unknown" is excluded outright — it is
never appended, so it does not occur in the output at all. -/
theorem C3_year_order_amended :
    ∀ keys : List String,
      "Unknown" ∉ sortYearKeys keys ∧
      sortYearKeys keys =
        (sortIntAsc ((keys.filter (fun y => y ≠ "Unknown")).filterMap jsParseInt)).map
          intToStr ++
        keys.filter (fun y => (jsParseInt y).isNone && decide (y ≠ "Unknown")) ∧
      List.Sorted (· ≤ ·)
        (sortIntAsc ((keys.filter (fun y => y ≠ "Unknown")).filterMap jsParseInt)) ∧
      List.Perm (sortIntAsc ((keys.filter (fun y => y ≠ "Unknown")).filterMap jsParseInt))
        ((keys.filter (fun y => y ≠ "Unknown")).filterMap jsParseInt) := by
  intro keys
  have heq : sortYearKeys keys =
      (sortIntAsc ((keys.filter (fun y => y ≠ "Unknown")).filterMap jsParseInt)).map
        intToStr ++
      keys.filter (fun y => (jsParseInt y).isNone && decide (y ≠ "Unknown")) := by
    simp only [sortYearKeys]
    rw [List.filterMap_map, List.filter_filter]
    rfl
  refine ⟨?_, heq, ?_, ?_⟩
  · rw [heq]
    intro hmem
    rcases List.mem_append.1 hmem with hl | hr
    · obtain ⟨n, _, hn⟩ := List.mem_map.1 hl
      exact intToStr_ne_unknown n hn
    · have hp := (List.mem_filter.1 hr).2
      simp only [Bool.and_eq_true, decide_eq_true_eq] at hp
      exact hp.2 rfl
  · exact List.sorted_insertionSort _ _
  · exact List.perm_insertionSort _ _

/-- Every pairing loop output is a sequence of (paired row, separator row)
blocks. -/
theorem pairLoop_alt (sObj : List (String × List CRec)) :
    ∀ (ls rs : List String),
      ∃ ps : List Row, pairLoop sObj ls rs = (ps.map (fun p => [p, sepRow])).flatten := by
  intro ls
  induction ls with
  | nil =>
    intro rs
    induction rs with
    | nil => exact ⟨[], rfl⟩
    | cons r rt ihr =>
      obtain ⟨ps, hps⟩ := ihr
      rw [show pairLoop sObj [] rt = pairRight sObj rt from rfl] at hps
      exact ⟨mkPairRow sObj none (some r) :: ps, by simp [pairLoop, pairRight, hps]⟩
  | cons l lt ihl =>
    intro rs
    match rs with
    | [] =>
      obtain ⟨ps, hps⟩ := ihl []
      exact ⟨mkPairRow sObj (some l) none :: ps, by simp [pairLoop, hps]⟩
    | r :: rt =>
      obtain ⟨ps, hps⟩ := ihl rt
      exact ⟨mkPairRow sObj (some l) (some r) :: ps, by simp [pairLoop, hps]⟩

/-- Concatenating year blocks preserves the (paired row, separator row)
block structure. -/
theorem buildBody_alt (ay : List (String × List (String × List CRec))) :
    ∀ (ys : List String) (body : List Row),
      buildBody ay ys = some body →
      ∃ ps : List Row, body = (ps.map (fun p => [p, sepRow])).flatten := by
  intro ys
  induction ys with
  | nil =>
    intro body h
    injection h with h
    exact ⟨[], h.symm⟩
  | cons y yt ih =>
    intro body h
    unfold buildBody at h
    match hr : rowsForYear ay y with
    | none => rw [hr] at h; cases h
    | some hrows =>
      rw [hr] at h
      match hb : buildBody ay yt with
      | none => rw [hb] at h; cases h
      | some t =>
        rw [hb] at h
        injection h with h
        obtain ⟨ps2, hps2⟩ := ih t hb
        have hpl : ∃ ps1 : List Row, hrows = (ps1.map (fun p => [p, sepRow])).flatten := by
          unfold rowsForYear at hr
          match hl : jsLookup ay y with
          | none => rw [hl] at hr; cases hr
          | some sObj =>
            rw [hl] at hr
            injection hr with hr
            obtain ⟨ps1, hps1⟩ := pairLoop_alt sObj
              ((jsObjKeys sObj).filter leftTest) ((jsObjKeys sObj).filter rightTest)
            exact ⟨ps1, by rw [← hr, hps1]⟩
        obtain ⟨ps1, hps1⟩ := hpl
        refine ⟨ps1 ++ ps2, ?_⟩
        rw [← h, hps1, hps2, List.map_append, List.flatten_append]

/-- C9: in every emitted table, the rows after the header decompose into
blocks of one paired course row immediately followed by exactly one
fully-blank separator row (ten cells of one empty line each) — paired rows
and separators strictly alternate. -/
theorem C9_separator_alternation :
    ∀ (g : List (String × List CRec)) (rows : List Row),
      buildTable g = some rows →
      ∃ ps : List Row, rows = headerRow :: (ps.map (fun p => [p, sepRow])).flatten := by
  intro g rows h
  simp only [buildTable] at h
  match hb : buildBody (buildAcademicYears g)
      (sortYearKeys (jsObjKeys (buildAcademicYears g))) with
  | none => rw [hb] at h; cases h
  | some body =>
    rw [hb] at h
    injection h with h
    obtain ⟨ps, hps⟩ := buildBody_alt _ _ _ hb
    exact ⟨ps, by rw [← h, hps]⟩

/-- C9 witness: the alternation theorem applied to the concrete table of a
one-course transcript. -/
theorem C9_witness :
    ∃ rows : List Row,
      buildTable [("Aug-18 Sem I", [⟨"Intro to Bible", "101", "A", "3"⟩])] = some rows ∧
      ∃ ps : List Row, rows = headerRow :: (ps.map (fun p => [p, sepRow])).flatten := by
  have h : buildTable [("Aug-18 Sem I", [⟨"Intro to Bible", "101", "A", "3"⟩])] =
      some [headerRow,
        [["Aug-18 Sem I"], ["Intro to Bible"], ["101"], ["A"], ["3"], [""], [], [], [], []],
        sepRow] := by rfl
  exact ⟨_, h, C9_separator_alternation _ _ h⟩

/-- Lower-casing fixes digits. -/
theorem lcase_digit {c : Char} (h : isDigitCh c = true) : lcase c = c := by
  unfold isDigitCh at h
  unfold lcase
  simp only [Bool.and_eq_true, decide_eq_true_eq] at h
  rw [if_neg]
  omega

/-- Lower-casing fixes digit strings pointwise. -/
theorem map_lcase_digits (d : List Char) (hd : ∀ c ∈ d, isDigitCh c = true) :
    d.map lcase = d := by
  induction d with
  | nil => rfl
  | cons c t ih =>
    rw [List.map_cons, lcase_digit (hd c (by simp)),
      ih (fun x hx => hd x (by simp [hx]))]

/-- A lower-case letter never equals a digit character. -/
theorem letter_beq_digit {c : Char} (hc : isDigitCh c = true) (p : Char)
    (hp : 97 ≤ p.toNat) : (p == c) = false := by
  unfold isDigitCh at hc
  simp only [Bool.and_eq_true, decide_eq_true_eq] at hc
  rw [beq_eq_false_iff_ne]
  intro h
  rw [h] at hp
  omega

/-- No autumn-month alternative matches at a digit character. -/
theorem monthAt_aut_digit {c : Char} (hc : isDigitCh c = true) (t : List Char) :
    monthAt monthsAut (c :: t) = none := by
  have ha := letter_beq_digit hc 'a' (by decide)
  have hs := letter_beq_digit hc 's' (by decide)
  have ho := letter_beq_digit hc 'o' (by decide)
  have hn := letter_beq_digit hc 'n' (by decide)
  have hd := letter_beq_digit hc 'd' (by decide)
  simp [monthAt, monthsAut, isPre, ha, hs, ho, hn, hd]

/-- No spring-month alternative matches at a digit character. -/
theorem monthAt_spr_digit {c : Char} (hc : isDigitCh c = true) (t : List Char) :
    monthAt monthsSpr (c :: t) = none := by
  have hj := letter_beq_digit hc 'j' (by decide)
  have hf := letter_beq_digit hc 'f' (by decide)
  have hm := letter_beq_digit hc 'm' (by decide)
  have ha := letter_beq_digit hc 'a' (by decide)
  simp [monthAt, monthsSpr, isPre, hj, hf, hm, ha]

/-- A failed month match makes the whole position fail. -/
theorem tryAt_none_of_month (alts : List (List Char)) (two : Bool) (l : List Char)
    (h : monthAt alts l = none) : tryAt alts two l = none := by
  unfold tryAt
  rw [h]

/-- A failed position hands the scan over to the next position. -/
theorem scanAux_cons_none (alts : List (List Char)) (two : Bool) (c : Char)
    (t : List Char) (h : tryAt alts two (c :: t) = none) :
    scanAux alts two (c :: t) = scanAux alts two t := by
  have hs : scanAux alts two (c :: t) =
      match tryAt alts two (c :: t) with
      | some ds => some ds
      | none => scanAux alts two t := rfl
  rw [hs, h]

/-- The leftmost scan skips over a run of digit characters (no month
alternative can start inside it). -/
theorem scanAux_skip_digits (alts : List (List Char)) (two : Bool)
    (hm : ∀ (c : Char), isDigitCh c = true → ∀ t, monthAt alts (c :: t) = none) :
    ∀ (d : List Char), (∀ c ∈ d, isDigitCh c = true) →
      ∀ rest, scanAux alts two (d ++ rest) = scanAux alts two rest := by
  intro d hd
  induction d with
  | nil => intro rest; rfl
  | cons c t ih =>
    intro rest
    have hc : isDigitCh c = true := hd c (by simp)
    show scanAux alts two (c :: (t ++ rest)) = scanAux alts two rest
    rw [scanAux_cons_none alts two c (t ++ rest)
      (tryAt_none_of_month alts two _ (hm c hc (t ++ rest)))]
    exact ih (fun x hx => hd x (by simp [hx])) rest

/-- One scan step at a position where a month alternative matches and the
tail pattern succeeds. -/
theorem scanAux_cons_of_tryAt (alts : List (List Char)) (two : Bool) (c : Char)
    (t : List Char) (d : List Char) (h : tryAt alts two (c :: t) = some d) :
    scanAux alts two (c :: t) = some d := by
  unfold scanAux
  rw [h]

/-- Composing a month match with a tail match. -/
theorem tryAt_of_month (alts : List (List Char)) (two : Bool) (l r : List Char)
    (d : List Char) (h1 : monthAt alts l = some r) (h2 : semTail two r = some d) :
    tryAt alts two l = some d := by
  unfold tryAt
  rw [h1]
  exact h2

/-- The `-(\d{2,4})\s+Sem\s*I` tail pattern over a 2-4 digit group followed
by the literal lower-cased suffix " sem i". -/
theorem semTail_digits_one (d : List Char) (h2 : 2 ≤ d.length) (h4 : d.length ≤ 4)
    (hd : ∀ c ∈ d, isDigitCh c = true) :
    semTail false ('-' :: (d ++ (' ' :: 's' :: 'e' :: 'm' :: ' ' :: 'i' :: []))) = some d := by
  simp only [semTail]
  rw [takeWhile_run d hd ' ' _ (by decide), dropWhile_run d hd ' ' _ (by decide)]
  rw [if_pos ⟨h2, h4⟩]
  rfl

/-- The `-(\d{2,4})\s+Sem\s*II` tail pattern over a 2-4 digit group
followed by the literal lower-cased suffix " sem ii". -/
theorem semTail_digits_two (d : List Char) (h2 : 2 ≤ d.length) (h4 : d.length ≤ 4)
    (hd : ∀ c ∈ d, isDigitCh c = true) :
    semTail true ('-' :: (d ++ (' ' :: 's' :: 'e' :: 'm' :: ' ' :: 'i' :: 'i' :: []))) =
      some d := by
  simp only [semTail]
  rw [takeWhile_run d hd ' ' _ (by decide), dropWhile_run d hd ' ' _ (by decide)]
  rw [if_pos ⟨h2, h4⟩]
  rfl

/-- C1: `getAcademicYear` implements the academic-year rule: a label the
Sem-I regex matches yields the captured two-to-four-digit year unchanged
with half I; otherwise a label the Sem-II regex matches yields the
captured year decremented by one, rendered as a decimal string, with half
II; a label matching neither yields "Unknown" with no half.  In
particular, for every autumn month name and 2-4 digit year string the
label `"{Mon}-{YY} Sem I"` classifies to (YY, I); for every spring month
name the label `"{Mon}-{YY} Sem II"` classifies to (YY - 1, II); and
`"Aug-18 Sem I"` gives ("18", I) while `"Jan-18 Sem II"` gives ("17", II). -/
theorem C1_getAcademicYear_spec :
    (∀ (l : String) (d : List Char), scanSemI l = some d →
      getAcademicYear l = ⟨String.mk d, some Half.I⟩) ∧
    (∀ (l : String) (d : List Char), scanSemI l = none → scanSemII l = some d →
      getAcademicYear l = ⟨intToStr ((digitsToNat d : Int) - 1), some Half.II⟩) ∧
    (∀ l : String, scanSemI l = none → scanSemII l = none →
      getAcademicYear l = ⟨"Unknown", none⟩) ∧
    (∀ m ∈ (["Aug", "Sep", "Oct", "Nov", "Dec"] : List String),
      ∀ d : List Char, 2 ≤ d.length → d.length ≤ 4 → (∀ c ∈ d, isDigitCh c = true) →
      getAcademicYear (m ++ "-" ++ String.mk d ++ " Sem I") =
        ⟨String.mk d, some Half.I⟩) ∧
    (∀ m ∈ (["Jan", "Feb", "Mar", "Apr", "May", "Jun"] : List String),
      ∀ d : List Char, 2 ≤ d.length → d.length ≤ 4 → (∀ c ∈ d, isDigitCh c = true) →
      getAcademicYear (m ++ "-" ++ String.mk d ++ " Sem II") =
        ⟨intToStr ((digitsToNat d : Int) - 1), some Half.II⟩) ∧
    getAcademicYear "Aug-18 Sem I" = ⟨"18", some Half.I⟩ ∧
    getAcademicYear "Jan-18 Sem II" = ⟨"17", some Half.II⟩ := by
  have hgen1 : ∀ (l : String) (d : List Char), scanSemI l = some d →
      getAcademicYear l = ⟨String.mk d, some Half.I⟩ := by
    intro l d h
    unfold getAcademicYear
    rw [h]
  have hgen2 : ∀ (l : String) (d : List Char), scanSemI l = none → scanSemII l = some d →
      getAcademicYear l = ⟨intToStr ((digitsToNat d : Int) - 1), some Half.II⟩ := by
    intro l d h1 h2
    unfold getAcademicYear
    rw [h1, h2]
  have hgen3 : ∀ l : String, scanSemI l = none → scanSemII l = none →
      getAcademicYear l = ⟨"Unknown", none⟩ := by
    intro l h1 h2
    unfold getAcademicYear
    rw [h1, h2]
  refine ⟨hgen1, hgen2, hgen3, ?_, ?_, by rfl, by rfl⟩
  · intro m hm d h2 h4 hdig
    fin_cases hm
    · -- Aug
      apply hgen1
      unfold scanSemI
      rw [show ("Aug" ++ "-" ++ String.mk d ++ " Sem I").data =
        'A' :: 'u' :: 'g' :: '-' :: (d ++ (' ' :: 'S' :: 'e' :: 'm' :: ' ' :: 'I' :: [])) from rfl]
      rw [show ('A' :: 'u' :: 'g' :: '-' :: (d ++ (' ' :: 'S' :: 'e' :: 'm' :: ' ' :: 'I' :: []))).map lcase =
        'a' :: 'u' :: 'g' :: '-' :: (d.map lcase ++ (' ' :: 's' :: 'e' :: 'm' :: ' ' :: 'i' :: [])) by
          simp only [List.map_cons, List.map_append]; rfl]
      rw [map_lcase_digits d hdig]
      exact scanAux_cons_of_tryAt _ _ _ _ d
        (tryAt_of_month _ _ _ ('-' :: (d ++ (' ' :: 's' :: 'e' :: 'm' :: ' ' :: 'i' :: []))) d rfl
          (semTail_digits_one d h2 h4 hdig))
    · -- Sep
      apply hgen1
      unfold scanSemI
      rw [show ("Sep" ++ "-" ++ String.mk d ++ " Sem I").data =
        'S' :: 'e' :: 'p' :: '-' :: (d ++ (' ' :: 'S' :: 'e' :: 'm' :: ' ' :: 'I' :: [])) from rfl]
      rw [show ('S' :: 'e' :: 'p' :: '-' :: (d ++ (' ' :: 'S' :: 'e' :: 'm' :: ' ' :: 'I' :: []))).map lcase =
        's' :: 'e' :: 'p' :: '-' :: (d.map lcase ++ (' ' :: 's' :: 'e' :: 'm' :: ' ' :: 'i' :: [])) by
          simp only [List.map_cons, List.map_append]; rfl]
      rw [map_lcase_digits d hdig]
      exact scanAux_cons_of_tryAt _ _ _ _ d
        (tryAt_of_month _ _ _ ('-' :: (d ++ (' ' :: 's' :: 'e' :: 'm' :: ' ' :: 'i' :: []))) d rfl
          (semTail_digits_one d h2 h4 hdig))
    · -- Oct
      apply hgen1
      unfold scanSemI
      rw [show ("Oct" ++ "-" ++ String.mk d ++ " Sem I").data =
        'O' :: 'c' :: 't' :: '-' :: (d ++ (' ' :: 'S' :: 'e' :: 'm' :: ' ' :: 'I' :: [])) from rfl]
      rw [show ('O' :: 'c' :: 't' :: '-' :: (d ++ (' ' :: 'S' :: 'e' :: 'm' :: ' ' :: 'I' :: []))).map lcase =
        'o' :: 'c' :: 't' :: '-' :: (d.map lcase ++ (' ' :: 's' :: 'e' :: 'm' :: ' ' :: 'i' :: [])) by
          simp only [List.map_cons, List.map_append]; rfl]
      rw [map_lcase_digits d hdig]
      exact scanAux_cons_of_tryAt _ _ _ _ d
        (tryAt_of_month _ _ _ ('-' :: (d ++ (' ' :: 's' :: 'e' :: 'm' :: ' ' :: 'i' :: []))) d rfl
          (semTail_digits_one d h2 h4 hdig))
    · -- Nov
      apply hgen1
      unfold scanSemI
      rw [show ("Nov" ++ "-" ++ String.mk d ++ " Sem I").data =
        'N' :: 'o' :: 'v' :: '-' :: (d ++ (' ' :: 'S' :: 'e' :: 'm' :: ' ' :: 'I' :: [])) from rfl]
      rw [show ('N' :: 'o' :: 'v' :: '-' :: (d ++ (' ' :: 'S' :: 'e' :: 'm' :: ' ' :: 'I' :: []))).map lcase =
        'n' :: 'o' :: 'v' :: '-' :: (d.map lcase ++ (' ' :: 's' :: 'e' :: 'm' :: ' ' :: 'i' :: [])) by
          simp only [List.map_cons, List.map_append]; rfl]
      rw [map_lcase_digits d hdig]
      exact scanAux_cons_of_tryAt _ _ _ _ d
        (tryAt_of_month _ _ _ ('-' :: (d ++ (' ' :: 's' :: 'e' :: 'm' :: ' ' :: 'i' :: []))) d rfl
          (semTail_digits_one d h2 h4 hdig))
    · -- Dec
      apply hgen1
      unfold scanSemI
      rw [show ("Dec" ++ "-" ++ String.mk d ++ " Sem I").data =
        'D' :: 'e' :: 'c' :: '-' :: (d ++ (' ' :: 'S' :: 'e' :: 'm' :: ' ' :: 'I' :: [])) from rfl]
      rw [show ('D' :: 'e' :: 'c' :: '-' :: (d ++ (' ' :: 'S' :: 'e' :: 'm' :: ' ' :: 'I' :: []))).map lcase =
        'd' :: 'e' :: 'c' :: '-' :: (d.map lcase ++ (' ' :: 's' :: 'e' :: 'm' :: ' ' :: 'i' :: [])) by
          simp only [List.map_cons, List.map_append]; rfl]
      rw [map_lcase_digits d hdig]
      exact scanAux_cons_of_tryAt _ _ _ _ d
        (tryAt_of_month _ _ _ ('-' :: (d ++ (' ' :: 's' :: 'e' :: 'm' :: ' ' :: 'i' :: []))) d rfl
          (semTail_digits_one d h2 h4 hdig))
  · intro m hm d h2 h4 hdig
    fin_cases hm
    · -- Jan
      refine hgen2 _ d ?_ ?_
      · unfold scanSemI
        rw [show ("Jan" ++ "-" ++ String.mk d ++ " Sem II").data =
          'J' :: 'a' :: 'n' :: '-' :: (d ++ (' ' :: 'S' :: 'e' :: 'm' :: ' ' :: 'I' :: 'I' :: [])) from rfl]
        rw [show ('J' :: 'a' :: 'n' :: '-' :: (d ++ (' ' :: 'S' :: 'e' :: 'm' :: ' ' :: 'I' :: 'I' :: []))).map lcase =
          'j' :: 'a' :: 'n' :: '-' :: (d.map lcase ++ (' ' :: 's' :: 'e' :: 'm' :: ' ' :: 'i' :: 'i' :: [])) by
            simp only [List.map_cons, List.map_append]; rfl]
        rw [map_lcase_digits d hdig]
        rw [scanAux_cons_none monthsAut false 'j' ('a' :: 'n' :: '-' :: (d ++ (' ' :: 's' :: 'e' :: 'm' :: ' ' :: 'i' :: 'i' :: []))) rfl]
        rw [scanAux_cons_none monthsAut false 'a' ('n' :: '-' :: (d ++ (' ' :: 's' :: 'e' :: 'm' :: ' ' :: 'i' :: 'i' :: []))) rfl]
        rw [scanAux_cons_none monthsAut false 'n' ('-' :: (d ++ (' ' :: 's' :: 'e' :: 'm' :: ' ' :: 'i' :: 'i' :: []))) rfl]
        rw [scanAux_cons_none monthsAut false '-' (d ++ (' ' :: 's' :: 'e' :: 'm' :: ' ' :: 'i' :: 'i' :: [])) rfl]
        rw [scanAux_skip_digits monthsAut false (fun c hc t => monthAt_aut_digit hc t) d hdig]
        decide
      · unfold scanSemII
        rw [show ("Jan" ++ "-" ++ String.mk d ++ " Sem II").data =
          'J' :: 'a' :: 'n' :: '-' :: (d ++ (' ' :: 'S' :: 'e' :: 'm' :: ' ' :: 'I' :: 'I' :: [])) from rfl]
        rw [show ('J' :: 'a' :: 'n' :: '-' :: (d ++ (' ' :: 'S' :: 'e' :: 'm' :: ' ' :: 'I' :: 'I' :: []))).map lcase =
          'j' :: 'a' :: 'n' :: '-' :: (d.map lcase ++ (' ' :: 's' :: 'e' :: 'm' :: ' ' :: 'i' :: 'i' :: [])) by
            simp only [List.map_cons, List.map_append]; rfl]
        rw [map_lcase_digits d hdig]
        exact scanAux_cons_of_tryAt _ _ _ _ d
          (tryAt_of_month _ _ _ ('-' :: (d ++ (' ' :: 's' :: 'e' :: 'm' :: ' ' :: 'i' :: 'i' :: []))) d rfl
            (semTail_digits_two d h2 h4 hdig))
    · -- Feb
      refine hgen2 _ d ?_ ?_
      · unfold scanSemI
        rw [show ("Feb" ++ "-" ++ String.mk d ++ " Sem II").data =
          'F' :: 'e' :: 'b' :: '-' :: (d ++ (' ' :: 'S' :: 'e' :: 'm' :: ' ' :: 'I' :: 'I' :: [])) from rfl]
        rw [show ('F' :: 'e' :: 'b' :: '-' :: (d ++ (' ' :: 'S' :: 'e' :: 'm' :: ' ' :: 'I' :: 'I' :: []))).map lcase =
          'f' :: 'e' :: 'b' :: '-' :: (d.map lcase ++ (' ' :: 's' :: 'e' :: 'm' :: ' ' :: 'i' :: 'i' :: [])) by
            simp only [List.map_cons, List.map_append]; rfl]
        rw [map_lcase_digits d hdig]
        rw [scanAux_cons_none monthsAut false 'f' ('e' :: 'b' :: '-' :: (d ++ (' ' :: 's' :: 'e' :: 'm' :: ' ' :: 'i' :: 'i' :: []))) rfl]
        rw [scanAux_cons_none monthsAut false 'e' ('b' :: '-' :: (d ++ (' ' :: 's' :: 'e' :: 'm' :: ' ' :: 'i' :: 'i' :: []))) rfl]
        rw [scanAux_cons_none monthsAut false 'b' ('-' :: (d ++ (' ' :: 's' :: 'e' :: 'm' :: ' ' :: 'i' :: 'i' :: []))) rfl]
        rw [scanAux_cons_none monthsAut false '-' (d ++ (' ' :: 's' :: 'e' :: 'm' :: ' ' :: 'i' :: 'i' :: [])) rfl]
        rw [scanAux_skip_digits monthsAut false (fun c hc t => monthAt_aut_digit hc t) d hdig]
        decide
      · unfold scanSemII
        rw [show ("Feb" ++ "-" ++ String.mk d ++ " Sem II").data =
          'F' :: 'e' :: 'b' :: '-' :: (d ++ (' ' :: 'S' :: 'e' :: 'm' :: ' ' :: 'I' :: 'I' :: [])) from rfl]
        rw [show ('F' :: 'e' :: 'b' :: '-' :: (d ++ (' ' :: 'S' :: 'e' :: 'm' :: ' ' :: 'I' :: 'I' :: []))).map lcase =
          'f' :: 'e' :: 'b' :: '-' :: (d.map lcase ++ (' ' :: 's' :: 'e' :: 'm' :: ' ' :: 'i' :: 'i' :: [])) by
            simp only [List.map_cons, List.map_append]; rfl]
        rw [map_lcase_digits d hdig]
        exact scanAux_cons_of_tryAt _ _ _ _ d
          (tryAt_of_month _ _ _ ('-' :: (d ++ (' ' :: 's' :: 'e' :: 'm' :: ' ' :: 'i' :: 'i' :: []))) d rfl
            (semTail_digits_two d h2 h4 hdig))
    · -- Mar
      refine hgen2 _ d ?_ ?_
      · unfold scanSemI
        rw [show ("Mar" ++ "-" ++ String.mk d ++ " Sem II").data =
          'M' :: 'a' :: 'r' :: '-' :: (d ++ (' ' :: 'S' :: 'e' :: 'm' :: ' ' :: 'I' :: 'I' :: [])) from rfl]
        rw [show ('M' :: 'a' :: 'r' :: '-' :: (d ++ (' ' :: 'S' :: 'e' :: 'm' :: ' ' :: 'I' :: 'I' :: []))).map lcase =
          'm' :: 'a' :: 'r' :: '-' :: (d.map lcase ++ (' ' :: 's' :: 'e' :: 'm' :: ' ' :: 'i' :: 'i' :: [])) by
            simp only [List.map_cons, List.map_append]; rfl]
        rw [map_lcase_digits d hdig]
        rw [scanAux_cons_none monthsAut false 'm' ('a' :: 'r' :: '-' :: (d ++ (' ' :: 's' :: 'e' :: 'm' :: ' ' :: 'i' :: 'i' :: []))) rfl]
        rw [scanAux_cons_none monthsAut false 'a' ('r' :: '-' :: (d ++ (' ' :: 's' :: 'e' :: 'm' :: ' ' :: 'i' :: 'i' :: []))) rfl]
        rw [scanAux_cons_none monthsAut false 'r' ('-' :: (d ++ (' ' :: 's' :: 'e' :: 'm' :: ' ' :: 'i' :: 'i' :: []))) rfl]
        rw [scanAux_cons_none monthsAut false '-' (d ++ (' ' :: 's' :: 'e' :: 'm' :: ' ' :: 'i' :: 'i' :: [])) rfl]
        rw [scanAux_skip_digits monthsAut false (fun c hc t => monthAt_aut_digit hc t) d hdig]
        decide
      · unfold scanSemII
        rw [show ("Mar" ++ "-" ++ String.mk d ++ " Sem II").data =
          'M' :: 'a' :: 'r' :: '-' :: (d ++ (' ' :: 'S' :: 'e' :: 'm' :: ' ' :: 'I' :: 'I' :: [])) from rfl]
        rw [show ('M' :: 'a' :: 'r' :: '-' :: (d ++ (' ' :: 'S' :: 'e' :: 'm' :: ' ' :: 'I' :: 'I' :: []))).map lcase =
          'm' :: 'a' :: 'r' :: '-' :: (d.map lcase ++ (' ' :: 's' :: 'e' :: 'm' :: ' ' :: 'i' :: 'i' :: [])) by
            simp only [List.map_cons, List.map_append]; rfl]
        rw [map_lcase_digits d hdig]
        exact scanAux_cons_of_tryAt _ _ _ _ d
          (tryAt_of_month _ _ _ ('-' :: (d ++ (' ' :: 's' :: 'e' :: 'm' :: ' ' :: 'i' :: 'i' :: []))) d rfl
            (semTail_digits_two d h2 h4 hdig))
    · -- Apr
      refine hgen2 _ d ?_ ?_
      · unfold scanSemI
        rw [show ("Apr" ++ "-" ++ String.mk d ++ " Sem II").data =
          'A' :: 'p' :: 'r' :: '-' :: (d ++ (' ' :: 'S' :: 'e' :: 'm' :: ' ' :: 'I' :: 'I' :: [])) from rfl]
        rw [show ('A' :: 'p' :: 'r' :: '-' :: (d ++ (' ' :: 'S' :: 'e' :: 'm' :: ' ' :: 'I' :: 'I' :: []))).map lcase =
          'a' :: 'p' :: 'r' :: '-' :: (d.map lcase ++ (' ' :: 's' :: 'e' :: 'm' :: ' ' :: 'i' :: 'i' :: [])) by
            simp only [List.map_cons, List.map_append]; rfl]
        rw [map_lcase_digits d hdig]
        rw [scanAux_cons_none monthsAut false 'a' ('p' :: 'r' :: '-' :: (d ++ (' ' :: 's' :: 'e' :: 'm' :: ' ' :: 'i' :: 'i' :: []))) rfl]
        rw [scanAux_cons_none monthsAut false 'p' ('r' :: '-' :: (d ++ (' ' :: 's' :: 'e' :: 'm' :: ' ' :: 'i' :: 'i' :: []))) rfl]
        rw [scanAux_cons_none monthsAut false 'r' ('-' :: (d ++ (' ' :: 's' :: 'e' :: 'm' :: ' ' :: 'i' :: 'i' :: []))) rfl]
        rw [scanAux_cons_none monthsAut false '-' (d ++ (' ' :: 's' :: 'e' :: 'm' :: ' ' :: 'i' :: 'i' :: [])) rfl]
        rw [scanAux_skip_digits monthsAut false (fun c hc t => monthAt_aut_digit hc t) d hdig]
        decide
      · unfold scanSemII
        rw [show ("Apr" ++ "-" ++ String.mk d ++ " Sem II").data =
          'A' :: 'p' :: 'r' :: '-' :: (d ++ (' ' :: 'S' :: 'e' :: 'm' :: ' ' :: 'I' :: 'I' :: [])) from rfl]
        rw [show ('A' :: 'p' :: 'r' :: '-' :: (d ++ (' ' :: 'S' :: 'e' :: 'm' :: ' ' :: 'I' :: 'I' :: []))).map lcase =
          'a' :: 'p' :: 'r' :: '-' :: (d.map lcase ++ (' ' :: 's' :: 'e' :: 'm' :: ' ' :: 'i' :: 'i' :: [])) by
            simp only [List.map_cons, List.map_append]; rfl]
        rw [map_lcase_digits d hdig]
        exact scanAux_cons_of_tryAt _ _ _ _ d
          (tryAt_of_month _ _ _ ('-' :: (d ++ (' ' :: 's' :: 'e' :: 'm' :: ' ' :: 'i' :: 'i' :: []))) d rfl
            (semTail_digits_two d h2 h4 hdig))
    · -- May
      refine hgen2 _ d ?_ ?_
      · unfold scanSemI
        rw [show ("May" ++ "-" ++ String.mk d ++ " Sem II").data =
          'M' :: 'a' :: 'y' :: '-' :: (d ++ (' ' :: 'S' :: 'e' :: 'm' :: ' ' :: 'I' :: 'I' :: [])) from rfl]
        rw [show ('M' :: 'a' :: 'y' :: '-' :: (d ++ (' ' :: 'S' :: 'e' :: 'm' :: ' ' :: 'I' :: 'I' :: []))).map lcase =
          'm' :: 'a' :: 'y' :: '-' :: (d.map lcase ++ (' ' :: 's' :: 'e' :: 'm' :: ' ' :: 'i' :: 'i' :: [])) by
            simp only [List.map_cons, List.map_append]; rfl]
        rw [map_lcase_digits d hdig]
        rw [scanAux_cons_none monthsAut false 'm' ('a' :: 'y' :: '-' :: (d ++ (' ' :: 's' :: 'e' :: 'm' :: ' ' :: 'i' :: 'i' :: []))) rfl]
        rw [scanAux_cons_none monthsAut false 'a' ('y' :: '-' :: (d ++ (' ' :: 's' :: 'e' :: 'm' :: ' ' :: 'i' :: 'i' :: []))) rfl]
        rw [scanAux_cons_none monthsAut false 'y' ('-' :: (d ++ (' ' :: 's' :: 'e' :: 'm' :: ' ' :: 'i' :: 'i' :: []))) rfl]
        rw [scanAux_cons_none monthsAut false '-' (d ++ (' ' :: 's' :: 'e' :: 'm' :: ' ' :: 'i' :: 'i' :: [])) rfl]
        rw [scanAux_skip_digits monthsAut false (fun c hc t => monthAt_aut_digit hc t) d hdig]
        decide
      · unfold scanSemII
        rw [show ("May" ++ "-" ++ String.mk d ++ " Sem II").data =
          'M' :: 'a' :: 'y' :: '-' :: (d ++ (' ' :: 'S' :: 'e' :: 'm' :: ' ' :: 'I' :: 'I' :: [])) from rfl]
        rw [show ('M' :: 'a' :: 'y' :: '-' :: (d ++ (' ' :: 'S' :: 'e' :: 'm' :: ' ' :: 'I' :: 'I' :: []))).map lcase =
          'm' :: 'a' :: 'y' :: '-' :: (d.map lcase ++ (' ' :: 's' :: 'e' :: 'm' :: ' ' :: 'i' :: 'i' :: [])) by
            simp only [List.map_cons, List.map_append]; rfl]
        rw [map_lcase_digits d hdig]
        exact scanAux_cons_of_tryAt _ _ _ _ d
          (tryAt_of_month _ _ _ ('-' :: (d ++ (' ' :: 's' :: 'e' :: 'm' :: ' ' :: 'i' :: 'i' :: []))) d rfl
            (semTail_digits_two d h2 h4 hdig))
    · -- Jun
      refine hgen2 _ d ?_ ?_
      · unfold scanSemI
        rw [show ("Jun" ++ "-" ++ String.mk d ++ " Sem II").data =
          'J' :: 'u' :: 'n' :: '-' :: (d ++ (' ' :: 'S' :: 'e' :: 'm' :: ' ' :: 'I' :: 'I' :: [])) from rfl]
        rw [show ('J' :: 'u' :: 'n' :: '-' :: (d ++ (' ' :: 'S' :: 'e' :: 'm' :: ' ' :: 'I' :: 'I' :: []))).map lcase =
          'j' :: 'u' :: 'n' :: '-' :: (d.map lcase ++ (' ' :: 's' :: 'e' :: 'm' :: ' ' :: 'i' :: 'i' :: [])) by
            simp only [List.map_cons, List.map_append]; rfl]
        rw [map_lcase_digits d hdig]
        rw [scanAux_cons_none monthsAut false 'j' ('u' :: 'n' :: '-' :: (d ++ (' ' :: 's' :: 'e' :: 'm' :: ' ' :: 'i' :: 'i' :: []))) rfl]
        rw [scanAux_cons_none monthsAut false 'u' ('n' :: '-' :: (d ++ (' ' :: 's' :: 'e' :: 'm' :: ' ' :: 'i' :: 'i' :: []))) rfl]
        rw [scanAux_cons_none monthsAut false 'n' ('-' :: (d ++ (' ' :: 's' :: 'e' :: 'm' :: ' ' :: 'i' :: 'i' :: []))) rfl]
        rw [scanAux_cons_none monthsAut false '-' (d ++ (' ' :: 's' :: 'e' :: 'm' :: ' ' :: 'i' :: 'i' :: [])) rfl]
        rw [scanAux_skip_digits monthsAut false (fun c hc t => monthAt_aut_digit hc t) d hdig]
        decide
      · unfold scanSemII
        rw [show ("Jun" ++ "-" ++ String.mk d ++ " Sem II").data =
          'J' :: 'u' :: 'n' :: '-' :: (d ++ (' ' :: 'S' :: 'e' :: 'm' :: ' ' :: 'I' :: 'I' :: [])) from rfl]
        rw [show ('J' :: 'u' :: 'n' :: '-' :: (d ++ (' ' :: 'S' :: 'e' :: 'm' :: ' ' :: 'I' :: 'I' :: []))).map lcase =
          'j' :: 'u' :: 'n' :: '-' :: (d.map lcase ++ (' ' :: 's' :: 'e' :: 'm' :: ' ' :: 'i' :: 'i' :: [])) by
            simp only [List.map_cons, List.map_append]; rfl]
        rw [map_lcase_digits d hdig]
        exact scanAux_cons_of_tryAt _ _ _ _ d
          (tryAt_of_month _ _ _ ('-' :: (d ++ (' ' :: 's' :: 'e' :: 'm' :: ' ' :: 'i' :: 'i' :: []))) d rfl
            (semTail_digits_two d h2 h4 hdig))

/-- C1 witness: the classification theorem applied at concrete labels
covering an autumn label, a spring label (decremented year), and a
no-match label. -/
theorem C1_witness :
    getAcademicYear ("Sep" ++ "-" ++ String.mk ['2', '0'] ++ " Sem I") =
      ⟨String.mk ['2', '0'], some Half.I⟩ ∧
    getAcademicYear ("Feb" ++ "-" ++ String.mk ['1', '8'] ++ " Sem II") =
      ⟨"17", some Half.II⟩ ∧
    getAcademicYear "NoSession" = ⟨"Unknown", none⟩ := by
  refine ⟨?_, ?_, ?_⟩
  · exact C1_getAcademicYear_spec.2.2.2.1 "Sep" (by decide) ['2', '0']
      (by decide) (by decide) (by decide)
  · have h := C1_getAcademicYear_spec.2.2.2.2.1 "Feb" (by decide) ['1', '8']
      (by decide) (by decide) (by decide)
    rw [h]
    rfl
  · exact C1_getAcademicYear_spec.2.2.1 "NoSession" (by decide) (by decide)

/-- A one-entry object enumerates to itself (whether or not its key is
array-index-like). -/
theorem jsEntries_single {α : Type} (p : String × α) : jsEntries [p] = [p] := by
  unfold jsEntries
  by_cases h : isArrayIdx p.1 = true
  · simp [List.filter, h, sortByKeyVal, insertByKeyVal]
  · simp [List.filter, h, sortByKeyVal]

/-- C10 counterexample.  A session holding only footer rows does get an
(empty) bucket, but when its label classifies to the "Unknown" year the
Year Pairer emits no slot for it at all: the table is just the header row,
refuting the unconditional "the Year Pairer emits a table slot showing
that session label". -/
theorem C10_counterexample :
    groupedData [⟨"Foo", "Foo", "Cumulative Grade Point Average: 3.2", "", "", ""⟩] =
      [("Foo", [])] ∧
    (getAcademicYear "Foo").year = "Unknown" ∧
    buildTable
      (groupedData [⟨"Foo", "Foo", "Cumulative Grade Point Average: 3.2", "", "", ""⟩]) =
      some [headerRow] := by
  refine ⟨rfl, rfl, rfl⟩

/-- C10 (amended): the footer test runs after the bucket for the current
session key is created, so a session row whose course text is a footer
marker still creates an empty bucket under its session label; and when
that label classifies to a known academic year whose key round-trips
through `parseInt`/`String` (the canonical-decimal form the sorted-year
lookup requires), the Year Pairer emits exactly one table slot showing the
label with empty course, category, grade and hours columns (on the left,
the right, or both sides, according to which session regex the label
matches). -/
theorem C10_footer_only_session_amended :
    ∀ (r : PRec) (label y : String) (hf : Half) (n : Int),
      isFooterCourse r.course = true →
      jsTrim r.rawSem ≠ "" →
      jsTrim r.sem = label →
      label ≠ "" →
      getAcademicYear label = ⟨y, some hf⟩ →
      y ≠ "Unknown" →
      jsParseInt y = some n →
      intToStr n = y →
      groupedData [r] = [(label, [])] ∧
      ∃ row : Row,
        buildTable (groupedData [r]) = some [headerRow, row, sepRow] ∧
        (row = [[label], [], [], [], [], [""], [], [], [], []] ∨
         row = [[""], [], [], [], [], [label], [], [], [], []] ∨
         row = [[label], [], [], [], [], [label], [], [], [], []]) := by
  intro r label y hf n hfoot hraw hsem hlabne hga hyU hpar hren
  have hnb : isBlankRec r = false := by
    unfold isBlankRec
    rw [beq_eq_false_iff_ne.mpr hraw]
    rfl
  have hkey : stepKey none r = label := by
    unfold stepKey
    rw [if_pos hraw]
    show (if jsTrim r.sem = "" then "NoSession" else jsTrim r.sem) = label
    rw [hsem, if_neg hlabne]
  have hstep : stepGroup ([], none) r = ([(label, [])], some label) := by
    rw [stepGroup_nonblank [] none r hnb, if_pos hfoot, hkey]
    rfl
  have hgrp : groupedData [r] = [(label, [])] := by
    unfold groupedData groupFold
    rw [List.foldl_cons, hstep]
    rfl
  refine ⟨hgrp, ?_⟩
  rw [hgrp]
  have hay : buildAcademicYears [(label, [])] = [(y, [(label, [])])] := by
    unfold buildAcademicYears
    rw [jsEntries_single]
    simp only [List.foldl]
    rw [hga]
    rfl
  have hkeys : jsObjKeys ([(y, [(label, [])])] :
      List (String × List (String × List CRec))) = [y] := by
    unfold jsObjKeys
    rw [jsEntries_single]
    rfl
  have hsort : sortYearKeys [y] = [y] := by
    simp only [sortYearKeys]
    have h1 : List.filter (fun s => decide (s ≠ "Unknown")) [y] = [y] := by
      simp [List.filter_cons, hyU]
    rw [h1]
    have h2 : (List.map jsParseInt [y]).filterMap id = [n] := by
      simp [hpar]
    rw [h2]
    have h4 : List.map intToStr (sortIntAsc [n]) = [y] := by
      simp [sortIntAsc, List.insertionSort, List.orderedInsert, hren]
    rw [h4]
    have h5 : List.filter (fun s => (jsParseInt s).isNone) [y] = [] := by
      simp [List.filter_cons, hpar]
    rw [h5]
    simp
  have hmkL : mkPairRow [(label, [])] (some label) none =
      [[label], [], [], [], [], [""], [], [], [], []] := by
    simp only [mkPairRow]
    rw [if_neg hlabne]
    simp [jsLookup, getColumnLines]
  have hmkR : mkPairRow [(label, [])] none (some label) =
      [[""], [], [], [], [], [label], [], [], [], []] := by
    simp only [mkPairRow]
    rw [if_neg hlabne]
    simp [jsLookup, getColumnLines]
  have hmkB : mkPairRow [(label, [])] (some label) (some label) =
      [[label], [], [], [], [], [label], [], [], [], []] := by
    simp only [mkPairRow]
    rw [if_neg hlabne]
    simp [jsLookup, getColumnLines]
  have hbt : ∀ body, buildBody (buildAcademicYears [(label, [])])
        (sortYearKeys (jsObjKeys (buildAcademicYears [(label, [])]))) = some body →
      buildTable [(label, [])] = some (headerRow :: body) := by
    intro body hbody
    simp only [buildTable]
    rw [hbody]
  have hrows : rowsForYear [(y, [(label, [])])] y =
      some (pairLoop [(label, [])] (List.filter leftTest [label])
        (List.filter rightTest [label])) := by
    unfold rowsForYear
    rw [show jsLookup [(y, [(label, [])])] y = some [(label, [])] from by
      simp [jsLookup]]
    show some (pairLoop [(label, [])] (List.filter leftTest (jsObjKeys [(label, [])]))
        (List.filter rightTest (jsObjKeys [(label, [])]))) =
      some (pairLoop [(label, [])] (List.filter leftTest [label])
        (List.filter rightTest [label]))
    rw [show jsObjKeys ([(label, [])] : List (String × List CRec)) = [label] from by
      unfold jsObjKeys; rw [jsEntries_single]; rfl]
  -- which sides the label occupies
  unfold getAcademicYear at hga
  match hI : scanSemI label with
  | some d =>
    rw [hI] at hga
    have hlt : leftTest label = true := by simp [leftTest, hI]
    match hII : scanSemII label with
    | some d2 =>
      have hrt : rightTest label = true := by simp [rightTest, hII]
      refine ⟨_, ?_, Or.inr (Or.inr rfl)⟩
      have hbody : buildBody [(y, [(label, [])])] [y] =
          some [mkPairRow [(label, [])] (some label) (some label), sepRow] := by
        simp only [buildBody]
        rw [hrows]
        rw [show List.filter leftTest [label] = [label] from by
          simp [List.filter_cons, hlt]]
        rw [show List.filter rightTest [label] = [label] from by
          simp [List.filter_cons, hrt]]
        rfl
      have := hbt [mkPairRow [(label, [])] (some label) (some label), sepRow]
        (by rw [hay, hkeys, hsort]; exact hbody)
      rw [this, hmkB]
    | none =>
      have hrt : rightTest label = false := by simp [rightTest, hII]
      refine ⟨_, ?_, Or.inl rfl⟩
      have hbody : buildBody [(y, [(label, [])])] [y] =
          some [mkPairRow [(label, [])] (some label) none, sepRow] := by
        simp only [buildBody]
        rw [hrows]
        rw [show List.filter leftTest [label] = [label] from by
          simp [List.filter_cons, hlt]]
        rw [show List.filter rightTest [label] = [] from by
          simp [List.filter_cons, hrt]]
        rfl
      have := hbt [mkPairRow [(label, [])] (some label) none, sepRow]
        (by rw [hay, hkeys, hsort]; exact hbody)
      rw [this, hmkL]
  | none =>
    rw [hI] at hga
    have hlt : leftTest label = false := by simp [leftTest, hI]
    match hII : scanSemII label with
    | some d2 =>
      rw [hII] at hga
      have hrt : rightTest label = true := by simp [rightTest, hII]
      refine ⟨_, ?_, Or.inr (Or.inl rfl)⟩
      have hbody : buildBody [(y, [(label, [])])] [y] =
          some [mkPairRow [(label, [])] none (some label), sepRow] := by
        simp only [buildBody]
        rw [hrows]
        rw [show List.filter leftTest [label] = [] from by
          simp [List.filter_cons, hlt]]
        rw [show List.filter rightTest [label] = [label] from by
          simp [List.filter_cons, hrt]]
        rfl
      have := hbt [mkPairRow [(label, [])] none (some label), sepRow]
        (by rw [hay, hkeys, hsort]; exact hbody)
      rw [this, hmkR]
    | none =>
      rw [hII] at hga
      injection hga with hy _
      exact absurd hy.symm hyU

/-- C10 witness: the footer-only-session theorem at a concrete record (a
footer row carrying the session "Aug-18 Sem I"). -/
theorem C10_witness :
    groupedData
      [⟨"x", "Aug-18 Sem I", "Total Number of Semester Hours Earned: 120", "", "", ""⟩] =
      [("Aug-18 Sem I", [])] ∧
    ∃ row : Row,
      buildTable (groupedData
        [⟨"x", "Aug-18 Sem I", "Total Number of Semester Hours Earned: 120", "", "", ""⟩]) =
        some [headerRow, row, sepRow] ∧
      (row = [["Aug-18 Sem I"], [], [], [], [], [""], [], [], [], []] ∨
       row = [[""], [], [], [], [], ["Aug-18 Sem I"], [], [], [], []] ∨
       row = [["Aug-18 Sem I"], [], [], [], [], ["Aug-18 Sem I"], [], [], [], []]) := by
  exact C10_footer_only_session_amended
    ⟨"x", "Aug-18 Sem I", "Total Number of Semester Hours Earned: 120", "", "", ""⟩
    "Aug-18 Sem I" "18" Half.I 18
    (by decide) (by decide) (by decide) (by decide) (by decide) (by decide)
    (by decide) (by decide)

/-- C3 witness: the ordering theorem at a concrete key list — numeric keys
sorted ascending, "Unknown" gone. -/
theorem C3_witness :
    "Unknown" ∉ sortYearKeys ["19", "17", "Unknown", "18"] ∧
    sortYearKeys ["19", "17", "Unknown", "18"] = ["17", "18", "19"] := by
  exact ⟨(C3_year_order_amended ["19", "17", "Unknown", "18"]).1, by decide⟩
